import Mathlib

/-!
Verification development for the skill-orchestration agent repository
(skill_agent.py, skills_registry.py, skill_matcher.py,
langchain_skills/skill_registry.py).

The Python sources are shallowly embedded: strings are Lean `String`
manipulated through their underlying `List Char` (the byte-position based
core `String` functions do not reduce in the kernel, so the Python string
primitives `lower`, `strip`, `split`, `in`, `partition`, ... are re-implemented
over character lists, matching Python semantics for the relevant inputs),
Python dicts with string keys are insertion-ordered association lists with
the dict update rule (replacing a key keeps its original position), and the
external decision model (Gemini) is an oracle parameter giving the response
of each successive model call.  Fallible Python code is embedded with
`Except`/`Option`: a raised exception that would propagate out of a Python
function is an `Except.error` value.
-/

/-! ## Python string primitives over character lists -/

/-- Embedding of Python `str.lower()` (ASCII case mapping, which is all the
repository uses: queries, slugs and registry names). -/
def pyLower (s : String) : String := String.mk (s.data.map Char.toLower)

/-- Embedding of Python `str.strip()` with no argument: remove leading and
trailing whitespace. -/
def pyStrip (s : String) : String :=
  String.mk (((s.data.dropWhile Char.isWhitespace).reverse.dropWhile Char.isWhitespace).reverse)

/-- Embedding of Python `str.rstrip(".")` : remove trailing dots. -/
def pyRstripDots (s : String) : String :=
  String.mk ((s.data.reverse.dropWhile (fun c => c = '.')).reverse)

/-- Embedding of the Python substring test `pat in hay`. -/
def strContains (hay pat : String) : Bool :=
  (List.range (hay.data.length + 1)).any (fun i => List.isPrefixOf pat.data (hay.data.drop i))

/-- Worker for `pySplitOn`; the fuel is the length of the list being split, so
the fuel-exhausted branch is never reached. -/
def splitOnListGo (sep : List Char) : Nat → List Char → List Char → List (List Char)
  | _, [], acc => [acc.reverse]
  | 0, l, acc => [acc.reverse ++ l]
  | fuel + 1, c :: rest, acc =>
    if List.isPrefixOf sep (c :: rest) then
      acc.reverse :: splitOnListGo sep fuel (List.drop (sep.length - 1) rest) []
    else splitOnListGo sep fuel rest (c :: acc)

/-- Embedding of Python `s.split(sep)` for a non-empty separator `sep`. -/
def pySplitOn (s sep : String) : List String :=
  (splitOnListGo sep.data s.data.length s.data []).map String.mk

/-- Embedding of Python `s.split()` (no argument): split on whitespace runs,
dropping empty fields. -/
def pySplitWs (s : String) : List String :=
  (pySplitOn (String.mk (s.data.map (fun c => if c.isWhitespace then ' ' else c))) " ").filter
    (fun w => w ≠ "")

/-- Embedding of Python `str.splitlines()` for text whose line separator is
`"\n"` (the only separator appearing in the SKILL.md files): like
`split("\n")` except that a trailing newline does not produce a final empty
line. -/
def pySplitlines (s : String) : List String :=
  let parts := pySplitOn s "\n"
  if parts.getLast? = some "" then parts.dropLast else parts

/-- Embedding of Python `s.partition(c)` restricted to the first two
components: the text before the first occurrence of `c` and the text after it
(`(s, "")` when `c` does not occur, as in Python). -/
def pyPartition (s : String) (c : Char) : String × String :=
  let pre := s.data.takeWhile (fun x => x ≠ c)
  (String.mk pre, String.mk (s.data.drop (pre.length + 1)))

/-- Embedding of Python `s.find(sub, start)`: index of the first occurrence of
`sub` at a position `≥ start`, `none` for Python result `-1`. -/
def pyFindFrom (s sub : String) (start : Nat) : Option Nat :=
  (List.range (s.data.length + 1)).find?
    (fun i => start ≤ i ∧ List.isPrefixOf sub.data (s.data.drop i))

/-- Embedding of Python `s.replace(a, b)` for a single-character pattern `a`
(the only use in the sources is `name.replace("-", " ")`). -/
def pyReplaceChar (s : String) (a : Char) (b : Char) : String :=
  String.mk (s.data.map (fun c => if c = a then b else c))

/-- Worker for `pyTitle`: the Bool records whether the previous character was
alphabetic (a "cased" character in Python terms, which for the ASCII slugs
used here coincides with alphabetic). -/
def titleGo : List Char → Bool → List Char
  | [], _ => []
  | c :: cs, prevAlpha =>
    let cA := c.isAlpha
    (if cA then (if prevAlpha then c.toLower else c.toUpper) else c) :: titleGo cs cA

/-- Embedding of Python `str.title()` for ASCII text: the first character of
every maximal alphabetic run is uppercased and the rest lowercased. -/
def pyTitle (s : String) : String := String.mk (titleGo s.data false)

/-- Python code-point comparison on strings (used by `sorted` and by
`json.dumps(..., sort_keys=True)`). -/
def charListLe : List Char → List Char → Bool
  | [], _ => true
  | _ :: _, [] => false
  | a :: as, b :: bs =>
    if a.toNat < b.toNat then true
    else if b.toNat < a.toNat then false
    else charListLe as bs

/-- String order used by Python `sorted` on strings. -/
def strLe (a b : String) : Bool := charListLe a.data b.data

/-- Insert into a list sorted by the string key `key`. -/
def insertByKey {α : Type} (key : α → String) (x : α) : List α → List α
  | [] => [x]
  | y :: ys => if strLe (key x) (key y) then x :: y :: ys else y :: insertByKey key x ys

/-- Sort by a string key; embeds Python `sorted(...)` with a string sort key
(the repository only sorts lists whose keys are pairwise distinct, so
stability is immaterial). -/
def sortByKey {α : Type} (key : α → String) (l : List α) : List α :=
  l.foldr (insertByKey key) []

/-- Embedding of the Python dict update `d[k] = v` on an insertion-ordered
association list: replacing an existing key keeps its position, a new key is
appended. -/
def dictInsert {α : Type} (d : List (String × α)) (k : String) (v : α) : List (String × α) :=
  if d.any (fun p => p.1 = k) then d.map (fun p => if p.1 = k then (k, v) else p)
  else d ++ [(k, v)]

/-- First-match association lookup (Python dict lookup on lists built with
`dictInsert`, whose keys are unique). -/
def lookupKey {α : Type} {β : Type} [DecidableEq α] (l : List (α × β)) (k : α) : Option β :=
  (l.find? (fun p => p.1 = k)).map Prod.snd

/-! ## JSON serialization (`json.dumps`) for the string fragment

The agent builds dedup keys and error payloads with `json.dumps`.  The
arguments of the tools in this repository are flat string-to-string dicts, so
the embedding covers JSON objects with string values.  String escaping
follows `json.dumps` defaults (`ensure_ascii=True`): the two-character
escapes, `\uXXXX` for other control and non-ASCII characters, and surrogate
pairs above the basic multilingual plane. -/

/-- Lower-case hexadecimal digit. -/
def hexDigit (n : Nat) : Char :=
  if n < 10 then Char.ofNat (48 + n) else Char.ofNat (97 + (n - 10))

/-- The six-character escape `\uXXXX`. -/
def uEscape (n : Nat) : List Char :=
  ['\\', 'u', hexDigit ((n / 4096) % 16), hexDigit ((n / 256) % 16),
   hexDigit ((n / 16) % 16), hexDigit (n % 16)]

/-- Escape one character the way `json.dumps` does with `ensure_ascii=True`. -/
def jsonEscapeChar (c : Char) : List Char :=
  if c = '"' then ['\\', '"']
  else if c = '\\' then ['\\', '\\']
  else if c = '\n' then ['\\', 'n']
  else if c = '\t' then ['\\', 't']
  else if c = '\r' then ['\\', 'r']
  else if c.toNat = 8 then ['\\', 'b']
  else if c.toNat = 12 then ['\\', 'f']
  else if c.toNat < 32 ∨ c.toNat > 126 then
    if c.toNat ≤ 65535 then uEscape c.toNat
    else uEscape (55296 + (c.toNat - 65536) / 1024) ++ uEscape (56320 + (c.toNat - 65536) % 1024)
  else [c]

/-- JSON string literal for `s` (`json.dumps(s)`). -/
def jsonStr (s : String) : String :=
  "\"" ++ String.mk (s.data.flatMap jsonEscapeChar) ++ "\""

/-- Embedding of `json.dumps` of a one-entry dict with the default
separators. -/
def jsonObj1 (k v : String) : String :=
  "\x7b" ++ jsonStr k ++ ": " ++ jsonStr v ++ "\x7d"

/-- Embedding of `json.dumps` of a two-entry dict with the default
separators, keys in insertion order. -/
def jsonObj2 (k1 v1 k2 v2 : String) : String :=
  "\x7b" ++ jsonStr k1 ++ ": " ++ jsonStr v1 ++ ", " ++ jsonStr k2 ++ ": " ++ jsonStr v2 ++ "\x7d"

/-! ## Filesystem model

The registry loaders scan the immediate children of the skills directory.  A
`DirEntry` models one child: its name, whether it is a directory, the content
of its `SKILL.md` when that file exists, and whether it has a `scripts`
subdirectory.  A directory tree state is the list of children as the
filesystem enumerates them. -/

structure DirEntry where
  name : String
  isDir : Bool
  skillMd : Option String
  scriptsDirExists : Bool
deriving DecidableEq

/-! ## skills_registry.py -/

/-- Registry entry built by `load_skill_registry` in skills_registry.py
(the two path-valued fields `skill_md_path` and `skill_dir` are determined by
the directory and are not modelled; `scripts_dir` is modelled by its
non-`None`-ness). -/
structure SkillEntry where
  name : String
  description : String
  full_instructions : String
  scripts_dir : Bool
deriving DecidableEq

/-- Embedding of `parse_frontmatter` (skills_registry.py): splits a
`---`-delimited frontmatter header from the body.  Returns the Python
`frontmatter` dict, whose `_body` key holds the body; when the header block
is absent or unclosed the dict has only `_body`, mapped to the whole
content. -/
def parse_frontmatter (content : String) : List (String × String) :=
  let base :=
    if List.isPrefixOf "---".data content.data then
      match pyFindFrom content "---" 3 with
      | some end_idx =>
        let fm_block := pyStrip (String.mk ((content.data.drop 3).take (end_idx - 3)))
        let body := pyStrip (String.mk (content.data.drop (end_idx + 3)))
        let fm := (pySplitlines fm_block).foldl
          (fun d line =>
            if strContains line ":" then
              let kv := pyPartition line ':'
              dictInsert d (pyStrip kv.1) (pyStrip kv.2)
            else d) []
        (fm, body)
      | none => ([], content)
    else ([], content)
  dictInsert base.1 "_body" base.2

/-- Embedding of `load_skill_registry` (skills_registry.py): scan the sorted
children of the skills directory; a child contributes when it is a directory
containing a `SKILL.md`; missing `name`/`description` fields fall back to the
directory name and a default description.  The result models the Python dict
keyed by skill name. -/
def load_skill_registry (fs : List DirEntry) : List (String × SkillEntry) :=
  (sortByKey DirEntry.name fs).foldl
    (fun registry d =>
      if !d.isDir then registry
      else
        match d.skillMd with
        | none => registry
        | some content =>
          let meta := parse_frontmatter content
          let name := (lookupKey meta "name").getD d.name
          let description := (lookupKey meta "description").getD "No description available."
          let body := (lookupKey meta "_body").getD content
          dictInsert registry name ⟨name, description, body, d.scriptsDirExists⟩)
    []

/-- Embedding of `get_registry` (skills_registry.py): always a fresh load
from the current tree. -/
def get_registry (fs : List DirEntry) : List (String × SkillEntry) :=
  load_skill_registry fs

/-- Embedding of `get_skill_instructions` (skills_registry.py). -/
def get_skill_instructions (registry : List (String × SkillEntry)) (skill_name : String) :
    Option String :=
  (lookupKey registry skill_name).map SkillEntry.full_instructions

-- sanity checks of the Python string primitives on concrete values
example : pyLower "Help Me NOW" = "help me now" := by decide
example : pyStrip "  a b \n" = "a b" := by decide
example : pyRstripDots "end..." = "end" := by decide
example : strContains "what can you do today" "can you" = true := by decide
example : strContains "abc" "" = true := by decide
example : pySplitOn "one. two. three" ". " = ["one", "two", "three"] := by decide
example : pySplitWs "  big  words here " = ["big", "words", "here"] := by decide
example : pySplitlines "a: 1\nb: 2\n" = ["a: 1", "b: 2"] := by decide
example : pyPartition "name: the value: x" ':' = ("name", " the value: x") := by decide
example : pyFindFrom "---\nx\n---\n" "---" 3 = some 6 := by decide
example : pyTitle "youtube tech summarizer" = "Youtube Tech Summarizer" := by decide
example : pyTitle "x2y abc" = "X2Y Abc" := by decide
example : jsonObj1 "error" "Unknown tool: t" = "\x7b\"error\": \"Unknown tool: t\"\x7d" := by decide
example : jsonStr "a\"b\\c" = "\"a\\\"b\\\\c\"" := by decide

example :
    parse_frontmatter "---\nname: demo\ndescription: Does things. Fast.\n---\nBody here" =
      [("name", "demo"), ("description", "Does things. Fast."), ("_body", "Body here")] := by
  decide

example :
    load_skill_registry
        [⟨"demo", true, some "---\nname: demo\ndescription: Does things. Fast.\n---\nBody", false⟩,
         ⟨"notes.txt", false, none, false⟩] =
      [("demo", ⟨"demo", "Does things. Fast.", "Body", false⟩)] := by
  decide

/-! ## langchain_skills/skill_registry.py -/

/-- Lightweight index entry built by `_parse_skill_md`
(langchain_skills/skill_registry.py); the `skill_dir` path is determined by
the scanned directory and is not modelled. -/
structure SkillMetadata where
  name : String
  description : String
deriving DecidableEq

/-- Python regex character class `\s` over ASCII. -/
def isWsChar (c : Char) : Bool :=
  c = ' ' ∨ c = '\t' ∨ c = '\n' ∨ c = '\r' ∨ c.toNat = 11 ∨ c.toNat = 12

/-- Does the closing-delimiter pattern `\n---\s*\n` match at the head of
`p`?  Equivalent to the regex: after `\n---`, some (possibly empty) prefix of
the following whitespace run must be followed by a newline, which holds
exactly when the whitespace run contains a newline. -/
def matchCloseAt (p : List Char) : Bool :=
  match p with
  | '\n' :: '-' :: '-' :: '-' :: rest => (rest.takeWhile isWsChar).contains '\n'
  | _ => false

/-- Index of the earliest match of the closing delimiter inside `tl` (the
lazy group `(.*?)` makes the regex engine pick the smallest index). -/
def findMinClose (tl : List Char) : Option Nat :=
  (List.range (tl.length + 1)).find? (fun i => matchCloseAt (tl.drop i))

/-- Embedding of the frontmatter regex
`re.match(r'^---\s*\n(.*?)\n---\s*\n', content, re.DOTALL)` from
`_parse_skill_md`: returns the content of the capture group when the pattern
matches.  The leading `\s*` is greedy (largest whitespace prefix ending just
before a newline, backtracking to smaller ones if the closing delimiter
cannot be found), the group is lazy. -/
def fmGroup (content : List Char) : Option (List Char) :=
  match content with
  | '-' :: '-' :: '-' :: rest =>
    let wsLen := (rest.takeWhile isWsChar).length
    (((List.range (wsLen + 1)).filter (fun k => (rest.drop k).head? = some '\n')).reverse).findSome?
      (fun k =>
        let tl := rest.drop (k + 1)
        (findMinClose tl).map (fun i => tl.take i))
  | _ => none

/-- A Python exception escaping a function: its class name and message. -/
structure PyExn where
  kind : String
  msg : String
deriving DecidableEq

deriving instance DecidableEq for Except

/-- Value returned by `yaml.safe_load` for a frontmatter block: a flat
string-to-string mapping, or a non-mapping Python value (tagged with its
Python type name: `None` for the empty document, a plain scalar string, or a
sequence).  Only mappings survive the subsequent `fm.get` calls. -/
inductive YamlValue
  | mapping (entries : List (String × String))
  | nonMapping (pyType : String)
deriving DecidableEq

/-- Does this non-blank line start a YAML sequence item (`- item`)? -/
def yamlSeqItemLine (l : String) : Bool :=
  List.isPrefixOf ['-', ' '] (pyStrip l).data ∨ pyStrip l = "-"

/-- Is this non-blank line a flat `key: value` mapping entry (a colon-space
separator, not a sequence item)?  In YAML a colon without a following space
does not separate a mapping key, so `key:value` is a plain scalar. -/
def yamlPairLine (l : String) : Bool :=
  strContains l ": " ∧ ¬ yamlSeqItemLine l

/-- Modelled fragment of `yaml.safe_load` for frontmatter blocks: a document
with no non-blank line loads as `None`; a document whose non-blank lines are
all flat `key: value` entries loads as the mapping (plain unquoted scalars,
which is all the SKILL.md files this repository generates use); a document
whose non-blank lines are all sequence items loads as a list, and one whose
lines are neither pairs nor sequence items loads as a plain scalar string -
in those cases `yaml.safe_load` returns a NON-MAPPING value WITHOUT raising.
Mixed line shapes are modelled as a `yaml.YAMLError` (`none`). -/
def yamlSimpleLoad (s : String) : Option YamlValue :=
  let lines := (pySplitlines s).filter (fun l => pyStrip l ≠ "")
  if lines.isEmpty then some (.nonMapping "NoneType")
  else if lines.all yamlPairLine then
    some (.mapping (lines.foldl
      (fun d line =>
        let kv := pyPartition line ':'
        dictInsert d (pyStrip kv.1) (pyStrip kv.2))
      []))
  else if lines.all yamlSeqItemLine then some (.nonMapping "list")
  else if lines.all (fun l => ¬ yamlPairLine l ∧ ¬ yamlSeqItemLine l) then
    some (.nonMapping "str")
  else none

/-- The ASCII apostrophe used in Python error messages. -/
def pySquote : String := String.mk ['\x27']

/-- Message of the `AttributeError` raised by `fm.get` when `yaml.safe_load`
returned a non-mapping value. -/
def attrErrMsg (pyType : String) : String :=
  pySquote ++ pyType ++ pySquote ++ " object has no attribute " ++ pySquote ++ "get" ++ pySquote

/-- Embedding of `_parse_skill_md` (langchain_skills/skill_registry.py).
`Except.error` models an exception escaping the function: the function
catches only `yaml.YAMLError` (yielding `None`, so the directory is skipped,
as with a non-matching regex or a missing/empty `name` or `description`
field), but when `yaml.safe_load` returns a non-mapping value - e.g. `None`
for an empty header block - the `fm.get("name", "")` call raises an
`AttributeError` that is NOT caught and propagates to the caller. -/
def _parse_skill_md (content : String) : Except PyExn (Option SkillMetadata) :=
  match fmGroup content.data with
  | none => .ok none
  | some g =>
    match yamlSimpleLoad (String.mk g) with
    | none => .ok none
    | some (.nonMapping ty) => .error ⟨"AttributeError", attrErrMsg ty⟩
    | some (.mapping fm) =>
      let name := (lookupKey fm "name").getD ""
      let description := (lookupKey fm "description").getD ""
      if name = "" ∨ description = "" then .ok none
      else .ok (some ⟨name, description⟩)

/-- One iteration of the scan loop of `load_skill_registry`
(langchain_skills/skill_registry.py): skip non-directories and directories
without a SKILL.md, propagate an exception raised by `_parse_skill_md`,
skip an unparsable document, register a parsed one. -/
def lc_step (registry : List (String × SkillMetadata)) (d : DirEntry) :
    Except PyExn (List (String × SkillMetadata)) :=
  if !d.isDir then .ok registry
  else
    match d.skillMd with
    | none => .ok registry
    | some content =>
      match _parse_skill_md content with
      | .error e => .error e
      | .ok none => .ok registry
      | .ok (some m) => .ok (dictInsert registry m.name m)

/-- The scan loop of the langchain_skills `load_skill_registry`: an exception
raised while parsing one directory aborts the whole load. -/
def lc_load_registry_go :
    List (String × SkillMetadata) → List DirEntry →
      Except PyExn (List (String × SkillMetadata))
  | registry, [] => .ok registry
  | registry, d :: rest =>
    match lc_step registry d with
    | .error e => .error e
    | .ok r2 => lc_load_registry_go r2 rest

/-- Embedding of `load_skill_registry` (langchain_skills/skill_registry.py):
scan the children in filesystem enumeration order; only directories whose
`SKILL.md` parses contribute; an uncaught parse exception (`AttributeError`
from a non-mapping frontmatter) escapes the function. -/
def lc_load_skill_registry (fs : List DirEntry) :
    Except PyExn (List (String × SkillMetadata)) :=
  lc_load_registry_go [] fs

example :
    _parse_skill_md "---\nname: web-page-scraper\ndescription: Scrapes pages\n---\nBody" =
      .ok (some ⟨"web-page-scraper", "Scrapes pages"⟩) := by decide
example : _parse_skill_md "---\nname: x\ndescription: y" = .ok none := by decide
example : _parse_skill_md "---\ndescription: y\n---\nbody\n" = .ok none := by decide
example : _parse_skill_md "no frontmatter at all" = .ok none := by decide
-- a closed header whose block is empty: yaml.safe_load returns None and
-- fm.get raises an uncaught AttributeError
example : _parse_skill_md "---\n\n---\nbody" =
    .error ⟨"AttributeError", attrErrMsg "NoneType"⟩ := by decide
-- a closed header whose block is a plain scalar: yaml.safe_load returns a
-- string, with the same uncaught AttributeError
example : _parse_skill_md "---\njust a scalar\n---\nbody" =
    .error ⟨"AttributeError", attrErrMsg "str"⟩ := by decide
-- a closed header whose block is a sequence: yaml.safe_load returns a list
example : _parse_skill_md "---\n- alpha\n- beta\n---\nbody" =
    .error ⟨"AttributeError", attrErrMsg "list"⟩ := by decide

/-! ## skill_matcher.py

`select_skill` asks the decision model for a JSON verdict and parses it with
`json.loads` after stripping markdown fences; parsing, `float()` conversion
and missing keys can raise `json.JSONDecodeError`, `KeyError` or
`ValueError`.  The embedding cuts the external interaction at the `try`
boundary: its input is either the successfully parsed and converted verdict
(`Except.ok`) or the message of the exception that the `try` block raised
(`Except.error`).  The registry is the langchain_skills one
(`dict[str, SkillMetadata]`). -/

/-- Successfully parsed decision-model verdict, after the field projections
`parsed.get("needs_skill", False)`, `parsed.get("skill_name")`,
`float(parsed.get("confidence", 0.0))` and `parsed.get("reasoning", "")`.
The float is modelled as a rational: `select_skill` only passes it through. -/
structure ParsedDecision where
  needs_skill : Bool
  skill_name : Option String
  confidence : ℚ
  reasoning : String

/-- The fuzzy-match test from `select_skill`: case-insensitive containment in
either direction. -/
def fuzzyMatch (sn reg_name : String) : Bool :=
  strContains (pyLower reg_name) (pyLower sn) ∨ strContains (pyLower sn) (pyLower reg_name)

/-- Number of matching keywords of one skill description against the query:
whitespace tokens of the lowercased description that are longer than 4
characters and occur in the lowercased query. -/
def kwMatches (description user_query : String) : Nat :=
  ((pySplitWs (pyLower description)).filter
    (fun kw => kw.data.length > 4 ∧ strContains (pyLower user_query) kw)).length

/-- Embedding of `select_skill` (skill_matcher.py).  Empty registry short
circuits; a parsed verdict is validated against the registry with the fuzzy
fallback picking the first matching name in registry order; a parse failure
falls back to keyword matching, returning the first skill in registry order
with at least two keyword matches, else no skill with a reasoning that
reports the parse error. -/
def select_skill (user_query : String) (registry : List (String × SkillMetadata))
    (decision : Except String ParsedDecision) : Option String × ℚ × String :=
  if registry.isEmpty then (none, 0, "No skills available")
  else
    match decision with
    | .ok parsed =>
      let sn0 : Option String := if parsed.needs_skill then parsed.skill_name else none
      let sn : Option String :=
        match sn0 with
        | none => none
        | some s =>
          if s ≠ "" ∧ ¬ registry.any (fun p => p.1 = s) then
            match registry.find? (fun p => fuzzyMatch s p.1) with
            | some p => some p.1
            | none => none
          else some s
      (sn, parsed.confidence, parsed.reasoning)
    | .error e =>
      match registry.find? (fun p => kwMatches p.2.description user_query ≥ 2) with
      | some p =>
        (some p.1, 1/2,
         "Keyword fallback match (" ++ toString (kwMatches p.2.description user_query) ++
           " keywords)")
      | none => (none, 0, "JSON parse error: " ++ e)

-- substring fuzzy matching does not bridge an underscore/hyphen difference:
-- neither lowercased name contains the other
example :
    select_skill "anything" [("youtube-transcript", ⟨"youtube-transcript", "desc"⟩)]
        (.ok ⟨true, some "youtube_transcript", 9/10, "match"⟩) =
      (none, 9/10, "match") := rfl

example :
    select_skill "anything" [("youtube-transcript", ⟨"youtube-transcript", "desc"⟩)]
        (.ok ⟨true, some "youtube", 9/10, "match"⟩) =
      (some "youtube-transcript", 9/10, "match") := rfl

/-! ## skill_agent.py

The decision model is an oracle `Nat → ModelResponse` giving the response of
the k-th model invocation of the run (the spec treats the model as a black
box `complete(...) -> {content, requestedToolCalls?, tokenUsage}`).  Message
content is modelled as the plain string case (every claim below is
insensitive to the repr-cleanup branches of `extract_text_content`, which
deal with provider-specific list-of-blocks shapes).  Tool argument values are
strings, matching every tool signature in the repository.  The LangGraph
`compiled.invoke(..., configized recursion_limit 8)` executes at most 8
node supersteps and raises `GraphRecursionError` once a 9th would be needed;
a raised exception that `run_agent` does not catch is the `Except.error`
result of the embedded run. -/

/-- One requested tool call of a decision-model response. -/
structure ToolCall where
  name : String
  args : List (String × String)
deriving DecidableEq

/-- Token usage triple extracted from one model response
(`_extract_token_usage`: the metadata-shape juggling is collapsed into the
oracle directly reporting the three counts). -/
structure TokenUsage where
  input_tokens : Nat
  output_tokens : Nat
  total_tokens : Nat
deriving DecidableEq

/-- Embedding of `_merge_usage`. -/
def _merge_usage (a b : TokenUsage) : TokenUsage :=
  ⟨a.input_tokens + b.input_tokens, a.output_tokens + b.output_tokens,
   a.total_tokens + b.total_tokens⟩

/-- One decision-model response: text content, requested tool calls and token
usage. -/
structure ModelResponse where
  content : String
  tool_calls : List ToolCall
  usage : TokenUsage

/-- One entry of the tool catalog (`TOOLS_LIST`): a name and the invokable
body, which returns a string or raises. -/
structure ToolSpec where
  name : String
  invoke : List (String × String) → Except PyExn String

/-- Embedding of `TOOL_MAP = {t.name: t for t in TOOLS}` followed by a name
lookup: Python dict-comprehension semantics (a repeated name keeps the last
tool). -/
def toolMapGet (tools : List ToolSpec) (name : String) : Option ToolSpec :=
  lookupKey (tools.foldl (fun d t => dictInsert d t.name t) []) name

/-- Embedding of `SKILL_DISPLAY_NAMES` (skill_agent.py). -/
def SKILL_DISPLAY_NAMES : List (String × String) :=
  [("medium-blog-generator", "Medium Blog Generator"),
   ("youtube-transcript", "YouTube Transcript & Summary"),
   ("youtube-tech-summarizer", "YouTube Tech Summarizer")]

/-- Display form of a skill name:
`SKILL_DISPLAY_NAMES.get(name, name.replace("-", " ").title())`. -/
def displayName (name : String) : String :=
  (lookupKey SKILL_DISPLAY_NAMES name).getD (pyTitle (pyReplaceChar name '-' ' '))

/-- First sentence of a description only:
`skill["description"].split(". ")[0].rstrip(".")`. -/
def shortDesc (description : String) : String :=
  pyRstripDots ((pySplitOn description ". ").headD "")

/-- The numbered per-skill lines of the `list_available_skills` output
(`enumerate(registry.items(), 1)`). -/
def skillLines : Nat → List (String × SkillEntry) → List String
  | _, [] => []
  | i, (name, sk) :: rest =>
    ("### " ++ toString i ++ ". " ++ displayName name)
      :: (shortDesc sk.description ++ ".\n")
      :: skillLines (i + 1) rest

/-- Embedding of Python `"\n".join(lines)`. -/
def joinNl : List String → String
  | [] => ""
  | [x] => x
  | x :: y :: ys => x ++ "\n" ++ joinNl (y :: ys)

/-- Embedding of the `list_available_skills` tool body (skill_agent.py),
parameterized by the registry that its internal `get_registry()` call
loads. -/
def list_available_skills (registry : List (String × SkillEntry)) : String :=
  if registry.isEmpty then "No skills are currently loaded."
  else
    joinNl
      (["## 🧠 Available Skills\n"] ++ skillLines 1 registry ++
        ["---", "_Simply describe what you need and I will automatically use the right skill._"])

/-- Embedding of `_LIST_SKILLS_PATTERNS` (skill_agent.py): the eleven
lowercase substring triggers of the fast path. -/
def _LIST_SKILLS_PATTERNS : List String :=
  ["what skills", "which skills", "list skills", "available skills",
   "what can you do", "what capabilities", "what tools", "show skills",
   "skills do you have", "skills available", "help me"]

/-- Embedding of `_is_list_skills_query` (skill_agent.py). -/
def _is_list_skills_query (query : String) : Bool :=
  _LIST_SKILLS_PATTERNS.any (fun p => strContains (pyStrip (pyLower query)) p)

/-- Embedding of the plain-string case of `extract_text_content`
(skill_agent.py): strip surrounding whitespace.  The branches cleaning raw
list/dict repr dumps (input starting with an opening bracket-brace or
brace-quote) are not modelled: no claim depends on them and the agent-path
contents modelled here are plain text. -/
def extract_text_content (content : String) : String := pyStrip content

/-- Record appended to the `tool_results` state channel for every
non-duplicate requested call (`_tool_node`). -/
structure ToolResult where
  tool : String
  args : List (String × String)
  result_preview : String
  result_full : String
deriving DecidableEq

/-- Canonical dedup key of a requested call:
`(name, json.dumps(args, sort_keys=True))`.  Two flat string dicts have equal
sorted-key serializations exactly when their key-sorted pair lists are equal,
so the serialization is represented by the sorted pair list itself. -/
def canonKey (name : String) (args : List (String × String)) :
    String × List (String × String) :=
  (name, sortByKey Prod.fst args)

/-- How one requested tool call was answered by `_tool_node`:
served from the dedup cache, executed through `invoke` (exceptions caught),
or answered with the unknown-tool error. -/
inductive CallOutcome
  | cachedDup
  | ranTool
  | unknownTool
deriving DecidableEq

/-- Instrumentation record of one requested tool call: the request, which
branch of `_tool_node` answered it, and the content of the `ToolMessage`
returned for it. -/
structure CallRecord where
  name : String
  args : List (String × String)
  outcome : CallOutcome
  message : String
deriving DecidableEq

/-- Content of the fallback note served when a duplicate has no cached
entry (unreachable in real runs, kept for faithfulness):
`json.dumps({"note": f"Already called {name} — using previous result."})`. -/
def dupDefaultNote (name : String) : String :=
  jsonObj1 "note" ("Already called " ++ name ++ " — using previous result.")

/-- The lookup-and-invoke part of `_tool_node` (lines with `TOOL_MAP`): the
result string for a non-duplicate request, plus whether the name was found in
the catalog.  An exception raised by the tool is caught and converted to
`json.dumps({"error": str(e), "tool": name})`; an unknown name yields
`json.dumps({"error": f"Unknown tool: {name}"})`. -/
def execToolRequest (catalog : List ToolSpec) (name : String)
    (args : List (String × String)) : String × Bool :=
  match toolMapGet catalog name with
  | some t =>
    (match t.invoke args with
     | .ok r => r
     | .error e => jsonObj2 "error" e.msg "tool" name, true)
  | none => (jsonObj1 "error" ("Unknown tool: " ++ name), false)

/-- Loop state of the `for tc in last_msg.tool_calls` loop of `_tool_node`:
the `tool_results` list, the `already_called` key set (modelled as the list
of keys in insertion order), the current `skill_instructions`, and the
instrumentation log of answered calls. -/
structure ToolNodeAcc where
  tool_results : List ToolResult
  already_called : List (String × List (String × String))
  skill_instructions : Option String
  log : List CallRecord

/-- One iteration of the `_tool_node` loop for the requested call `tc`. -/
def toolCallStep (catalog : List ToolSpec) (acc : ToolNodeAcc) (tc : ToolCall) : ToolNodeAcc :=
  let call_key := canonKey tc.name tc.args
  if acc.already_called.any (fun k => k = call_key) then
    let cached :=
      match acc.tool_results.find?
          (fun tr => tr.tool = tc.name ∧ sortByKey Prod.fst tr.args = sortByKey Prod.fst tc.args) with
      | some tr => tr.result_full
      | none => dupDefaultNote tc.name
    { acc with log := acc.log ++ [⟨tc.name, tc.args, .cachedDup, cached⟩] }
  else
    let rb := execToolRequest catalog tc.name tc.args
    { tool_results := acc.tool_results ++ [⟨tc.name, tc.args, String.mk (rb.1.data.take 500), rb.1⟩],
      already_called := acc.already_called ++ [call_key],
      skill_instructions :=
        if tc.name = "read_skill_instructions" then some rb.1 else acc.skill_instructions,
      log := acc.log ++ [⟨tc.name, tc.args, if rb.2 then .ranTool else .unknownTool, rb.1⟩] }

/-- Per-query agent state threaded through the graph (the `AgentState`
channels that the claims depend on, plus instrumentation counters; the
`messages` channel is represented by the instrumentation log and the loop
return value, and `final_response` is never written by the graph nodes). -/
structure RunState where
  selected_skill : Option String
  skill_instructions : Option String
  tool_results : List ToolResult
  token_usage : TokenUsage
  llmCalls : Nat
  callLog : List CallRecord

/-- Embedding of `_tool_node`: builds `already_called` from the accumulated
`tool_results`, runs every requested call of the latest response, and stores
the updated channels. -/
def _tool_node (catalog : List ToolSpec) (calls : List ToolCall) (st : RunState) : RunState :=
  let acc0 : ToolNodeAcc :=
    { tool_results := st.tool_results,
      already_called := st.tool_results.map (fun tr => canonKey tr.tool tr.args),
      skill_instructions := st.skill_instructions,
      log := st.callLog }
  let acc := calls.foldl (toolCallStep catalog) acc0
  { st with
      tool_results := acc.tool_results,
      skill_instructions := acc.skill_instructions,
      callLog := acc.log }

/-- Embedding of `_agent_node` given the model response of this turn: record
the skill name of any requested `read_skill_instructions` call, and
accumulate token usage.  The system-prompt construction feeds the model and
does not affect the state beyond the oracle response. -/
def _agent_node (st : RunState) (resp : ModelResponse) : RunState :=
  let sel := resp.tool_calls.foldl
    (fun sel tc =>
      if tc.name = "read_skill_instructions" then
        match lookupKey tc.args "skill_name" with
        | some v => some v
        | none => sel
      else sel)
    st.selected_skill
  { st with
      selected_skill := sel,
      token_usage := _merge_usage st.token_usage resp.usage,
      llmCalls := st.llmCalls + 1 }

/-- The raised `GraphRecursionError` of a run that exceeds the recursion
limit. -/
inductive AgentError
  | recursionLimit
deriving DecidableEq

/-- The `recursion_limit` configured by `run_agent`. -/
def RECURSION_LIMIT : Nat := 8

/-- Embedding of the compiled two-node LangGraph cycle
(`agent ⇄ execute_tools`, `_should_continue`): each node execution consumes
one superstep of the budget; needing a step beyond the budget raises
`GraphRecursionError`.  Returns the final answer content (the content of the
last agent response, which has no tool calls) or the raised error, together
with the final state in either case. -/
def runGraph (catalog : List ToolSpec) (oracle : Nat → ModelResponse) :
    Nat → RunState → Except AgentError String × RunState
  | 0, st => (.error .recursionLimit, st)
  | fuel + 1, st =>
    let resp := oracle st.llmCalls
    let st1 := _agent_node st resp
    if resp.tool_calls.isEmpty then (.ok resp.content, st1)
    else
      match fuel with
      | 0 => (.error .recursionLimit, st1)
      | fuel1 + 1 => runGraph catalog oracle fuel1 (_tool_node catalog resp.tool_calls st1)

/-- Value of one field of the dict returned by `run_agent`. -/
inductive RVal
  | str (s : String)
  | optStr (s : Option String)
  | strList (l : List String)
  | results (l : List ToolResult)
  | usage (u : TokenUsage)
deriving DecidableEq

/-- Full observable outcome of one `run_agent` call: the returned dict as an
ordered key-value list (`Except.error` when an uncaught exception escapes
`run_agent`), the number of decision-model invocations, and the
instrumentation log of all tool requests answered during the run. -/
structure RunOutcome where
  result : Except AgentError (List (String × RVal))
  llmCalls : Nat
  callLog : List CallRecord
deriving DecidableEq

/-- Fresh `initial_state` built by `run_agent`. -/
def initialRunState : RunState :=
  { selected_skill := none, skill_instructions := none, tool_results := [],
    token_usage := ⟨0, 0, 0⟩, llmCalls := 0, callLog := [] }

/-- Embedding of `run_agent` (skill_agent.py): the fast path answers
list-skills queries with one direct `list_available_skills` invocation and a
three-field dict; otherwise the LangGraph pipeline runs with recursion limit
8 and the five-field dict is built from the final state.  `fs` is the skills
directory tree that the `get_registry()` calls read. -/
def run_agent (fs : List DirEntry) (catalog : List ToolSpec)
    (oracle : Nat → ModelResponse) (user_query : String) : RunOutcome :=
  let registry := get_registry fs
  if _is_list_skills_query user_query then
    let response_text := list_available_skills registry
    { result := .ok
        [("response", .str response_text),
         ("selected_skill", .optStr none),
         ("tools_called", .strList ["list_available_skills"])],
      llmCalls := 0,
      callLog := [⟨"list_available_skills", [], .ranTool, response_text⟩] }
  else
    match runGraph catalog oracle RECURSION_LIMIT initialRunState with
    | (.error e, fin) => { result := .error e, llmCalls := fin.llmCalls, callLog := fin.callLog }
    | (.ok content, fin) =>
      { result := .ok
          [("response", .str (extract_text_content content)),
           ("selected_skill", .optStr fin.selected_skill),
           ("tools_called", .strList (fin.tool_results.map ToolResult.tool)),
           ("tool_results", .results fin.tool_results),
           ("token_usage", .usage fin.token_usage)],
        llmCalls := fin.llmCalls, callLog := fin.callLog }

/-! ### Concrete sanity checks of the agent embedding -/

/-- Demo catalog: one tool named `t` returning `OUT`. -/
def demoCatalog : List ToolSpec := [⟨"t", fun _ => .ok "OUT"⟩]

/-- Demo oracle: first turn requests `t` twice with the same arguments,
second turn answers. -/
def demoOracle : Nat → ModelResponse := fun k =>
  if k = 0 then ⟨"", [⟨"t", []⟩, ⟨"t", []⟩], ⟨1, 2, 3⟩⟩
  else ⟨"final answer", [], ⟨4, 5, 9⟩⟩

example :
    (run_agent [] demoCatalog demoOracle "run the demo").callLog =
      [⟨"t", [], .ranTool, "OUT"⟩, ⟨"t", [], .cachedDup, "OUT"⟩] := by decide

example :
    (run_agent [] demoCatalog demoOracle "run the demo").result =
      .ok
        [("response", .str "final answer"),
         ("selected_skill", .optStr none),
         ("tools_called", .strList ["t"]),
         ("tool_results", .results [⟨"t", [], "OUT", "OUT"⟩]),
         ("token_usage", .usage ⟨5, 7, 12⟩)] := by decide

/-- Demo oracle that requests a tool on every turn. -/
def loopingOracle : Nat → ModelResponse := fun _ => ⟨"", [⟨"t", []⟩], ⟨0, 0, 0⟩⟩

example :
    (run_agent [] demoCatalog loopingOracle "keep going").result =
      .error .recursionLimit := by decide

example : (run_agent [] demoCatalog loopingOracle "keep going").llmCalls = 4 := by decide

example : (run_agent [] demoCatalog demoOracle "What skills do you have available?").llmCalls = 0 := by
  decide

/-! ## Instrumentation predicates for the deduplication guarantee -/

/-- Records that were answered by actually running the lookup-and-execute
branch (and therefore appended to `tool_results`), as opposed to being served
from the dedup cache. -/
def nonDup (r : CallRecord) : Bool := r.outcome ≠ CallOutcome.cachedDup

/-- Canonical dedup key of a logged request. -/
def recKey (r : CallRecord) : String × List (String × String) := canonKey r.name r.args

/-- The `(canonical key, result_full)` pairs a log contributes to
`tool_results`: every non-duplicate record appends exactly one entry whose
`result_full` is the message it returned. -/
def resultsOfLog (log : List CallRecord) : List ((String × List (String × String)) × String) :=
  (log.filter nonDup).map (fun r => (recKey r, r.message))

/-- Dedup correctness of one answered request `r` given the requests `l1`
answered before it: if the canonical key of `r` was already recorded (its
first recorded result being `m`), then `r` was served from the cache with
exactly `m` and the tool was not re-executed; if it was not recorded, `r` was
not served from the cache. -/
def DedupOk (l1 : List CallRecord) (r : CallRecord) : Prop :=
  (∀ m, lookupKey (resultsOfLog l1) (recKey r) = some m →
      r.outcome = CallOutcome.cachedDup ∧ r.message = m)
  ∧ (lookupKey (resultsOfLog l1) (recKey r) = none → r.outcome ≠ CallOutcome.cachedDup)

/-- Every request of the log satisfies `DedupOk` with respect to the requests
before it. -/
def GoodLog (log : List CallRecord) : Prop :=
  ∀ l1 r l2, log = l1 ++ r :: l2 → DedupOk l1 r

/-- Correspondence between the `tool_results` channel, the `already_called`
set and the instrumentation log inside the `_tool_node` loop. -/
def accInvariant (acc : ToolNodeAcc) : Prop :=
  resultsOfLog acc.log =
      acc.tool_results.map (fun tr => (canonKey tr.tool tr.args, tr.result_full))
    ∧ acc.already_called = acc.tool_results.map (fun tr => canonKey tr.tool tr.args)

/-- Correspondence between the `tool_results` channel and the instrumentation
log at graph-state level. -/
def stateInvariant (st : RunState) : Prop :=
  resultsOfLog st.callLog =
    st.tool_results.map (fun tr => (canonKey tr.tool tr.args, tr.result_full))

/-! ### Association-list helper lemmas -/

theorem lookupKey_isSome_of_mem {α β : Type} [DecidableEq α] {l : List (α × β)} {k : α} {v : β}
    (h : (k, v) ∈ l) : (lookupKey l k).isSome := by
  have hf : (List.find? (fun p => decide (p.1 = k)) l).isSome := by
    rw [List.find?_isSome]
    exact ⟨(k, v), h, by simp⟩
  unfold lookupKey
  cases hc : List.find? (fun p => decide (p.1 = k)) l with
  | none => rw [hc] at hf; simp at hf
  | some p => simp

theorem lookupKey_eq_none_of_not_mem {α β : Type} [DecidableEq α] {l : List (α × β)} {k : α}
    (h : k ∉ l.map Prod.fst) : lookupKey l k = none := by
  have hf : List.find? (fun p => decide (p.1 = k)) l = none := by
    rw [List.find?_eq_none]
    intro p hp
    simp only [decide_eq_true_eq]
    intro hk
    exact h (List.mem_map.mpr ⟨p, hp, hk⟩)
  unfold lookupKey
  rw [hf]
  rfl

theorem lookupKey_map_toolResults (l : List ToolResult) (k : String × List (String × String)) :
    lookupKey (l.map (fun tr => (canonKey tr.tool tr.args, tr.result_full))) k
      = (l.find? (fun tr => canonKey tr.tool tr.args = k)).map ToolResult.result_full := by
  induction l with
  | nil => rfl
  | cons tr rest ih =>
    by_cases h : canonKey tr.tool tr.args = k
    · rw [List.map_cons]
      unfold lookupKey
      rw [List.find?_cons_of_pos, List.find?_cons_of_pos]
      · rfl
      · simpa using h
      · simpa using h
    · rw [List.map_cons]
      unfold lookupKey
      rw [List.find?_cons_of_neg, List.find?_cons_of_neg]
      · exact ih
      · simpa using h
      · simpa using h

theorem resultsOfLog_append (a b : List CallRecord) :
    resultsOfLog (a ++ b) = resultsOfLog a ++ resultsOfLog b := by
  unfold resultsOfLog
  rw [List.filter_append, List.map_append]

theorem resultsOfLog_dup (r : CallRecord) (h : r.outcome = CallOutcome.cachedDup) :
    resultsOfLog [r] = [] := by
  simp [resultsOfLog, List.filter, nonDup, h]

theorem resultsOfLog_nonDup (r : CallRecord) (h : r.outcome ≠ CallOutcome.cachedDup) :
    resultsOfLog [r] = [(recKey r, r.message)] := by
  simp [resultsOfLog, List.filter, nonDup, h]

/-! ### Split decomposition and `GoodLog` closure lemmas -/

theorem split_snoc {α : Type} (log : List α) (x : α) (l1 : List α) (r : α) (l2 : List α)
    (h : log ++ [x] = l1 ++ r :: l2) :
    (∃ l2a, log = l1 ++ r :: l2a ∧ l2 = l2a ++ [x]) ∨ (l1 = log ∧ r = x ∧ l2 = []) := by
  cases l2 using List.reverseRecOn with
  | nil =>
    right
    have h2 : log ++ [x] = l1 ++ [r] := h
    have hlen : log.length = l1.length := by
      have := congrArg List.length h2
      simp at this
      omega
    have := List.append_inj' h2 (by simp)
    exact ⟨this.1.symm, by simpa using this.2.symm, rfl⟩
  | append_singleton l2a y =>
    left
    have h2 : log ++ [x] = (l1 ++ r :: l2a) ++ [y] := by
      rw [h]; simp
    have := List.append_inj' h2 (by simp)
    refine ⟨l2a, this.1, ?_⟩
    have hy : x = y := by simpa using this.2
    rw [hy]

theorem goodLog_nil : GoodLog [] := by
  intro l1 r l2 h
  exact absurd h (by simp)

theorem goodLog_restrict (log : List CallRecord) (x : CallRecord)
    (h : GoodLog (log ++ [x])) : GoodLog log := by
  intro l1 r l2 heq
  exact h l1 r (l2 ++ [x]) (by rw [heq]; simp)

theorem goodLog_snoc (log : List CallRecord) (x : CallRecord)
    (hG : GoodLog log) (hx : DedupOk log x) : GoodLog (log ++ [x]) := by
  intro l1 r l2 heq
  rcases split_snoc log x l1 r l2 heq with ⟨l2a, h1, _⟩ | ⟨h1, h2, _⟩
  · exact hG l1 r l2a h1
  · rw [← h1] at hx
    rw [h2]
    exact hx

/-! ### The `_tool_node` loop preserves the invariant and dedup property -/

theorem find?_congrPred {α : Type} (p q : α → Bool) (l : List α) (h : ∀ a, p a = q a) :
    l.find? p = l.find? q := by
  induction l with
  | nil => rfl
  | cons x xs ih =>
    simp only [List.find?, h x]
    cases q x
    · exact ih
    · rfl

theorem toolCallStep_preserves (catalog : List ToolSpec) (tc : ToolCall) (acc : ToolNodeAcc)
    (hI : accInvariant acc) (hG : GoodLog acc.log) :
    accInvariant (toolCallStep catalog acc tc) ∧ GoodLog (toolCallStep catalog acc tc).log := by
  obtain ⟨hres, hac⟩ := hI
  by_cases hdup : acc.already_called.any (fun k => k = canonKey tc.name tc.args)
  · -- duplicate branch: served from the cache, log extended by a cachedDup record
    have hmem : canonKey tc.name tc.args ∈ acc.tool_results.map
        (fun tr => canonKey tr.tool tr.args) := by
      rw [← hac]
      rcases List.any_eq_true.mp hdup with ⟨k, hk, hkeq⟩
      rwa [← (by simpa using hkeq : k = canonKey tc.name tc.args)]
    -- the cached lookup and the find? in the code agree
    have hfind_eq :
        acc.tool_results.find?
            (fun tr => tr.tool = tc.name ∧
              sortByKey Prod.fst tr.args = sortByKey Prod.fst tc.args)
          = acc.tool_results.find? (fun tr => canonKey tr.tool tr.args = canonKey tc.name tc.args) := by
      apply find?_congrPred
      intro tr
      rw [decide_eq_decide]
      simp [canonKey, Prod.ext_iff]
    have hsome : (acc.tool_results.find?
        (fun tr => canonKey tr.tool tr.args = canonKey tc.name tc.args)).isSome := by
      rw [List.find?_isSome]
      rcases List.mem_map.mp hmem with ⟨tr, htr, hkey⟩
      exact ⟨tr, htr, by simpa using hkey⟩
    obtain ⟨tr0, htr0⟩ := Option.isSome_iff_exists.mp hsome
    have hlook : lookupKey (resultsOfLog acc.log) (canonKey tc.name tc.args)
        = some tr0.result_full := by
      rw [hres, lookupKey_map_toolResults, htr0]
      rfl
    have hstep : toolCallStep catalog acc tc =
        { acc with log := acc.log ++ [⟨tc.name, tc.args, .cachedDup, tr0.result_full⟩] } := by
      unfold toolCallStep
      rw [if_pos hdup, hfind_eq, htr0]
    rw [hstep]
    refine ⟨⟨?_, hac⟩, ?_⟩
    · rw [resultsOfLog_append, resultsOfLog_dup _ rfl, List.append_nil]
      exact hres
    · apply goodLog_snoc _ _ hG
      constructor
      · intro m hm
        refine ⟨rfl, ?_⟩
        rw [show recKey ⟨tc.name, tc.args, .cachedDup, tr0.result_full⟩
              = canonKey tc.name tc.args from rfl, hlook] at hm
        exact Option.some_inj.mp hm
      · intro hnone
        rw [show recKey ⟨tc.name, tc.args, .cachedDup, tr0.result_full⟩
              = canonKey tc.name tc.args from rfl, hlook] at hnone
        exact absurd hnone (by simp)
  · -- execute branch: the key is new, the tool (or the unknown-tool error) runs
    have hnotmem : canonKey tc.name tc.args ∉ acc.tool_results.map
        (fun tr => canonKey tr.tool tr.args) := by
      rw [← hac]
      intro hmem
      exact hdup (List.any_eq_true.mpr ⟨_, hmem, by simp⟩)
    have hnone : lookupKey (resultsOfLog acc.log) (canonKey tc.name tc.args) = none := by
      apply lookupKey_eq_none_of_not_mem
      rw [hres]
      simpa [Function.comp] using hnotmem
    have hstep : toolCallStep catalog acc tc =
        let rb := execToolRequest catalog tc.name tc.args
        { tool_results := acc.tool_results ++
            [⟨tc.name, tc.args, String.mk (rb.1.data.take 500), rb.1⟩],
          already_called := acc.already_called ++ [canonKey tc.name tc.args],
          skill_instructions :=
            if tc.name = "read_skill_instructions" then some rb.1 else acc.skill_instructions,
          log := acc.log ++
            [⟨tc.name, tc.args, if rb.2 then .ranTool else .unknownTool, rb.1⟩] } := by
      unfold toolCallStep
      rw [if_neg hdup]
    rw [hstep]
    have houtcome : (if (execToolRequest catalog tc.name tc.args).2 then CallOutcome.ranTool
        else CallOutcome.unknownTool) ≠ CallOutcome.cachedDup := by
      by_cases hb : (execToolRequest catalog tc.name tc.args).2 <;> simp [hb]
    refine ⟨⟨?_, ?_⟩, ?_⟩
    · rw [resultsOfLog_append, resultsOfLog_nonDup _ houtcome, hres, List.map_append]
      rfl
    · rw [hac, List.map_append]
      rfl
    · apply goodLog_snoc _ _ hG
      constructor
      · intro m hm
        rw [show recKey ⟨tc.name, tc.args,
              if (execToolRequest catalog tc.name tc.args).2 then CallOutcome.ranTool
              else CallOutcome.unknownTool, (execToolRequest catalog tc.name tc.args).1⟩
            = canonKey tc.name tc.args from rfl, hnone] at hm
        exact absurd hm (by simp)
      · intro _
        exact houtcome

theorem toolNode_foldl_preserves (catalog : List ToolSpec) (calls : List ToolCall) :
    ∀ acc : ToolNodeAcc, accInvariant acc → GoodLog acc.log →
      accInvariant (calls.foldl (toolCallStep catalog) acc)
        ∧ GoodLog (calls.foldl (toolCallStep catalog) acc).log := by
  induction calls with
  | nil => intro acc hI hG; exact ⟨hI, hG⟩
  | cons tc rest ih =>
    intro acc hI hG
    have h1 := toolCallStep_preserves catalog tc acc hI hG
    exact ih _ h1.1 h1.2

theorem tool_node_preserves (catalog : List ToolSpec) (calls : List ToolCall) (st : RunState)
    (hI : stateInvariant st) (hG : GoodLog st.callLog) :
    stateInvariant (_tool_node catalog calls st) ∧ GoodLog (_tool_node catalog calls st).callLog := by
  have hacc : accInvariant
      { tool_results := st.tool_results,
        already_called := st.tool_results.map (fun tr => canonKey tr.tool tr.args),
        skill_instructions := st.skill_instructions,
        log := st.callLog } := ⟨hI, rfl⟩
  have h := toolNode_foldl_preserves catalog calls _ hacc hG
  exact ⟨h.1.1, h.2⟩

theorem runGraph_zero (catalog : List ToolSpec) (oracle : Nat → ModelResponse) (st : RunState) :
    runGraph catalog oracle 0 st = (.error .recursionLimit, st) := rfl

theorem runGraph_one (catalog : List ToolSpec) (oracle : Nat → ModelResponse) (st : RunState) :
    runGraph catalog oracle 1 st =
      (if (oracle st.llmCalls).tool_calls.isEmpty then
        ((.ok (oracle st.llmCalls).content : Except AgentError String),
          _agent_node st (oracle st.llmCalls))
      else (.error .recursionLimit, _agent_node st (oracle st.llmCalls))) := rfl

theorem runGraph_succ_succ (catalog : List ToolSpec) (oracle : Nat → ModelResponse)
    (fuel : Nat) (st : RunState) :
    runGraph catalog oracle (fuel + 2) st =
      (if (oracle st.llmCalls).tool_calls.isEmpty then
        ((.ok (oracle st.llmCalls).content : Except AgentError String),
          _agent_node st (oracle st.llmCalls))
      else
        runGraph catalog oracle fuel
          (_tool_node catalog (oracle st.llmCalls).tool_calls
            (_agent_node st (oracle st.llmCalls)))) := rfl

theorem runGraph_preserves (catalog : List ToolSpec) (oracle : Nat → ModelResponse) :
    ∀ (fuel : Nat) (st : RunState), stateInvariant st → GoodLog st.callLog →
      stateInvariant (runGraph catalog oracle fuel st).2
        ∧ GoodLog (runGraph catalog oracle fuel st).2.callLog := by
  intro fuel
  induction fuel using Nat.strong_induction_on with
  | _ fuel ih =>
    match fuel with
    | 0 =>
      intro st hI hG
      exact ⟨hI, hG⟩
    | 1 =>
      intro st hI hG
      rw [runGraph_one]
      by_cases hc : (oracle st.llmCalls).tool_calls.isEmpty
      · rw [if_pos hc]; exact ⟨hI, hG⟩
      · rw [if_neg hc]; exact ⟨hI, hG⟩
    | fuel + 2 =>
      intro st hI hG
      rw [runGraph_succ_succ]
      by_cases hc : (oracle st.llmCalls).tool_calls.isEmpty
      · rw [if_pos hc]; exact ⟨hI, hG⟩
      · rw [if_neg hc]
        have hstep := tool_node_preserves catalog (oracle st.llmCalls).tool_calls
          (_agent_node st (oracle st.llmCalls)) hI hG
        exact ih fuel (by omega) _ hstep.1 hstep.2

/-! ### From `GoodLog` to run-level properties -/

theorem pairwise_of_goodLog :
    ∀ log : List CallRecord, GoodLog log →
      (log.filter nonDup).Pairwise (fun a b => recKey a ≠ recKey b) := by
  intro log
  induction log using List.reverseRecOn with
  | nil => intro _; simp
  | append_singleton log x ih =>
    intro hG
    rw [List.filter_append, List.pairwise_append]
    refine ⟨ih (goodLog_restrict log x hG), ?_, ?_⟩
    · cases hnd : nonDup x <;> simp [List.filter, hnd]
    · intro a ha b hb
      have hbx : b = x ∧ nonDup x = true := by
        cases hnd : nonDup x
        · rw [show List.filter nonDup [x] = [] by simp [List.filter, hnd]] at hb
          exact absurd hb (by simp)
        · rw [show List.filter nonDup [x] = [x] by simp [List.filter, hnd]] at hb
          exact ⟨by simpa using hb, rfl⟩
      obtain ⟨rfl, hex⟩ := hbx
      intro hkeq
      have ha2 := List.mem_filter.mp ha
      have hmem : (recKey a, a.message) ∈ resultsOfLog log := by
        unfold resultsOfLog
        exact List.mem_map.mpr ⟨a, ha, rfl⟩
      rw [hkeq] at hmem
      obtain ⟨m, hm⟩ := Option.isSome_iff_exists.mp (lookupKey_isSome_of_mem hmem)
      have hx := (hG log b [] (by simp)).1 m hm
      have : b.outcome ≠ CallOutcome.cachedDup := by simpa [nonDup] using hex
      exact this hx.1

theorem run_agent_fast (fs : List DirEntry) (catalog : List ToolSpec)
    (oracle : Nat → ModelResponse) (query : String)
    (h : _is_list_skills_query query = true) :
    run_agent fs catalog oracle query =
      { result := .ok
          [("response", .str (list_available_skills (get_registry fs))),
           ("selected_skill", .optStr none),
           ("tools_called", .strList ["list_available_skills"])],
        llmCalls := 0,
        callLog := [⟨"list_available_skills", [], .ranTool,
          list_available_skills (get_registry fs)⟩] } := by
  unfold run_agent
  rw [if_pos h]

theorem run_agent_callLog_standard (fs : List DirEntry) (catalog : List ToolSpec)
    (oracle : Nat → ModelResponse) (query : String)
    (h : _is_list_skills_query query = false) :
    (run_agent fs catalog oracle query).callLog =
      (runGraph catalog oracle RECURSION_LIMIT initialRunState).2.callLog := by
  unfold run_agent
  rw [if_neg (by simp [h])]
  split <;> rename_i heq <;> rw [heq]

theorem run_agent_llmCalls_standard (fs : List DirEntry) (catalog : List ToolSpec)
    (oracle : Nat → ModelResponse) (query : String)
    (h : _is_list_skills_query query = false) :
    (run_agent fs catalog oracle query).llmCalls =
      (runGraph catalog oracle RECURSION_LIMIT initialRunState).2.llmCalls := by
  unfold run_agent
  rw [if_neg (by simp [h])]
  split <;> rename_i heq <;> rw [heq]

theorem run_agent_result_standard_ok (fs : List DirEntry) (catalog : List ToolSpec)
    (oracle : Nat → ModelResponse) (query : String) (c : String)
    (h : _is_list_skills_query query = false)
    (hc : (runGraph catalog oracle RECURSION_LIMIT initialRunState).1 = .ok c) :
    (run_agent fs catalog oracle query).result = .ok
      [("response", .str (extract_text_content c)),
       ("selected_skill",
        .optStr (runGraph catalog oracle RECURSION_LIMIT initialRunState).2.selected_skill),
       ("tools_called",
        .strList ((runGraph catalog oracle RECURSION_LIMIT initialRunState).2.tool_results.map
          ToolResult.tool)),
       ("tool_results",
        .results (runGraph catalog oracle RECURSION_LIMIT initialRunState).2.tool_results),
       ("token_usage",
        .usage (runGraph catalog oracle RECURSION_LIMIT initialRunState).2.token_usage)] := by
  unfold run_agent
  rw [if_neg (by simp [h])]
  split
  · rename_i e fin heq
    rw [heq] at hc
    exact absurd hc (by simp)
  · rename_i content fin heq
    rw [heq] at hc ⊢
    have hcc : content = c := by simpa using hc
    rw [hcc]

theorem run_agent_result_standard_err (fs : List DirEntry) (catalog : List ToolSpec)
    (oracle : Nat → ModelResponse) (query : String) (e : AgentError)
    (h : _is_list_skills_query query = false)
    (he : (runGraph catalog oracle RECURSION_LIMIT initialRunState).1 = .error e) :
    (run_agent fs catalog oracle query).result = .error e := by
  unfold run_agent
  rw [if_neg (by simp [h])]
  split
  · rfl
  · rename_i content fin heq
    rw [heq] at he
    exact absurd he (by simp)

theorem run_agent_goodLog (fs : List DirEntry) (catalog : List ToolSpec)
    (oracle : Nat → ModelResponse) (query : String) :
    GoodLog (run_agent fs catalog oracle query).callLog := by
  by_cases h : _is_list_skills_query query
  · rw [run_agent_fast fs catalog oracle query h]
    have hsingle : GoodLog ([] ++ [(⟨"list_available_skills", [], .ranTool,
        list_available_skills (get_registry fs)⟩ : CallRecord)]) := by
      apply goodLog_snoc [] _ goodLog_nil
      constructor
      · intro m hm
        exact absurd hm (by simp [resultsOfLog, lookupKey, List.find?])
      · intro _
        simp
    simpa using hsingle
  · rw [run_agent_callLog_standard fs catalog oracle query (by simpa using h)]
    exact (runGraph_preserves catalog oracle RECURSION_LIMIT initialRunState rfl goodLog_nil).2

theorem run_agent_stateInvariant_standard (catalog : List ToolSpec)
    (oracle : Nat → ModelResponse) :
    stateInvariant (runGraph catalog oracle RECURSION_LIMIT initialRunState).2 :=
  (runGraph_preserves catalog oracle RECURSION_LIMIT initialRunState rfl goodLog_nil).1

/-! ### Substring facts about the skills listing -/

theorem strData_append (a b : String) : (a ++ b).data = a.data ++ b.data := by
  cases a; cases b; rfl

theorem strContains_of_infix (hay pat : String) (h : pat.data <:+: hay.data) :
    strContains hay pat = true := by
  obtain ⟨s, t, hst⟩ := h
  unfold strContains
  rw [List.any_eq_true]
  refine ⟨s.length, ?_, ?_⟩
  · rw [List.mem_range]
    have : hay.data.length = s.length + (pat.data.length + t.length) := by
      rw [← hst]; simp [Nat.add_assoc]
    omega
  · have hdrop : hay.data.drop s.length = pat.data ++ t := by
      rw [← hst, List.drop_append_of_le_length (by simp), List.drop_left]
    rw [hdrop]
    rw [List.isPrefixOf_iff_prefix]
    exact ⟨t, rfl⟩

theorem mem_infix_joinNl (lines : List String) (s : String) (h : s ∈ lines) :
    s.data <:+: (joinNl lines).data := by
  induction lines with
  | nil => exact absurd h (by simp)
  | cons x xs ih =>
    rcases List.mem_cons.mp h with rfl | hmem
    · cases xs with
      | nil => exact List.infix_refl _
      | cons y ys =>
        rw [show joinNl (s :: y :: ys) = s ++ "\n" ++ joinNl (y :: ys) from rfl]
        rw [strData_append, strData_append]
        exact ((List.prefix_append s.data _).trans (List.prefix_append _ _)).isInfix
    · cases xs with
      | nil => exact absurd hmem (by simp)
      | cons y ys =>
        rw [show joinNl (x :: y :: ys) = x ++ "\n" ++ joinNl (y :: ys) from rfl]
        rw [strData_append]
        exact (ih hmem).trans (List.suffix_append _ _).isInfix

theorem displayName_infix_skillLines (registry : List (String × SkillEntry))
    (name : String) (sk : SkillEntry) (h : (name, sk) ∈ registry) :
    ∀ i : Nat, ∃ line ∈ skillLines i registry, (displayName name).data <:+: line.data := by
  induction registry with
  | nil => exact absurd h (by simp)
  | cons p rest ih =>
    intro i
    rcases List.mem_cons.mp h with rfl | hmem
    · refine ⟨"### " ++ toString i ++ ". " ++ displayName name, by simp [skillLines], ?_⟩
      rw [strData_append]
      exact (List.suffix_append _ _).isInfix
    · obtain ⟨line, hline, hinf⟩ := ih hmem (i + 1)
      exact ⟨line, by simp [skillLines, hline], hinf⟩

theorem listing_contains_display (registry : List (String × SkillEntry))
    (name : String) (sk : SkillEntry) (h : (name, sk) ∈ registry) :
    strContains (list_available_skills registry) (displayName name) = true := by
  obtain ⟨line, hline, hinf⟩ := displayName_infix_skillLines registry name sk h 1
  have hne : registry.isEmpty = false := by
    cases registry
    · exact absurd h (by simp)
    · rfl
  unfold list_available_skills
  rw [hne]
  simp only [Bool.false_eq_true, if_false]
  apply strContains_of_infix
  exact hinf.trans (mem_infix_joinNl _ line (by simp [hline]))

/-! ### More support lemmas for the claims -/

theorem infix_of_strContains (hay pat : String) (h : strContains hay pat = true) :
    pat.data <:+: hay.data := by
  unfold strContains at h
  obtain ⟨i, _, hpre⟩ := List.any_eq_true.mp h
  have h1 : pat.data <+: hay.data.drop i := List.isPrefixOf_iff_prefix.mp hpre
  exact h1.isInfix.trans (List.drop_suffix i hay.data).isInfix

theorem infix_str_append_right (a b : String) (x : List Char) (h : x <:+: a.data) :
    x <:+: (a ++ b).data := by
  rw [strData_append]
  exact h.trans (List.prefix_append _ _).isInfix

theorem infix_str_append_left (a b : String) (x : List Char) (h : x <:+: b.data) :
    x <:+: (a ++ b).data := by
  rw [strData_append]
  exact h.trans (List.suffix_append _ _).isInfix

/-- Characters that `json.dumps` passes through unchanged: printable ASCII
other than the quote and the backslash. -/
def plainChar (c : Char) : Bool :=
  32 ≤ c.toNat ∧ c.toNat ≤ 126 ∧ c ≠ '"' ∧ c ≠ '\\'

theorem jsonEscapeChar_plain (c : Char) (h : plainChar c = true) : jsonEscapeChar c = [c] := by
  have h1 : 32 ≤ c.toNat ∧ c.toNat ≤ 126 ∧ c ≠ '"' ∧ c ≠ '\\' := by simpa [plainChar] using h
  obtain ⟨ha, hb, hq, hs⟩ := h1
  have hn : c ≠ '\n' := by intro hc; rw [hc] at ha; exact absurd ha (by decide)
  have ht : c ≠ '\t' := by intro hc; rw [hc] at ha; exact absurd ha (by decide)
  have hr : c ≠ '\r' := by intro hc; rw [hc] at ha; exact absurd ha (by decide)
  unfold jsonEscapeChar
  rw [if_neg hq, if_neg hs, if_neg hn, if_neg ht, if_neg hr,
    if_neg (by omega), if_neg (by omega), if_neg (by push_neg; omega)]

theorem flatMap_plain :
    ∀ l : List Char, (∀ c ∈ l, plainChar c = true) → l.flatMap jsonEscapeChar = l := by
  intro l
  induction l with
  | nil => intro _; rfl
  | cons c cs ih =>
    intro h
    rw [List.flatMap_cons, jsonEscapeChar_plain c (h c (List.mem_cons_self c cs)),
      ih (fun c2 hc2 => h c2 (List.mem_cons_of_mem c hc2))]
    rfl

theorem jsonStr_plain (s : String) (h : ∀ c ∈ s.data, plainChar c = true) :
    jsonStr s = "\"" ++ s ++ "\"" := by
  unfold jsonStr
  rw [flatMap_plain s.data h]

theorem strContains_jsonObj2_v1 (k1 v1 k2 v2 : String)
    (h : ∀ c ∈ v1.data, plainChar c = true) :
    strContains (jsonObj2 k1 v1 k2 v2) v1 = true := by
  apply strContains_of_infix
  unfold jsonObj2
  have hj : v1.data <:+: (jsonStr v1).data := by
    rw [jsonStr_plain v1 h, strData_append, strData_append]
    exact ⟨"\"".data, "\"".data, rfl⟩
  apply infix_str_append_right
  apply infix_str_append_right
  apply infix_str_append_right
  apply infix_str_append_right
  apply infix_str_append_right
  apply infix_str_append_left
  exact hj

theorem strContains_jsonObj2_v2 (k1 v1 k2 v2 : String)
    (h : ∀ c ∈ v2.data, plainChar c = true) :
    strContains (jsonObj2 k1 v1 k2 v2) v2 = true := by
  apply strContains_of_infix
  unfold jsonObj2
  have hj : v2.data <:+: (jsonStr v2).data := by
    rw [jsonStr_plain v2 h, strData_append, strData_append]
    exact ⟨"\"".data, "\"".data, rfl⟩
  apply infix_str_append_right
  apply infix_str_append_left
  exact hj

theorem runGraph_always_calls (catalog : List ToolSpec) (oracle : Nat → ModelResponse)
    (h : ∀ k, (oracle k).tool_calls ≠ []) :
    ∀ (fuel : Nat) (st : RunState),
      (runGraph catalog oracle fuel st).1 = .error .recursionLimit := by
  intro fuel
  induction fuel using Nat.strong_induction_on with
  | _ fuel ih =>
    match fuel with
    | 0 => intro st; rfl
    | 1 =>
      intro st
      rw [runGraph_one, if_neg (by simp [List.isEmpty_iff, h st.llmCalls])]
    | fuel + 2 =>
      intro st
      rw [runGraph_succ_succ, if_neg (by simp [List.isEmpty_iff, h st.llmCalls])]
      exact ih fuel (by omega) _

theorem parse_frontmatter_unclosed (content : String)
    (h1 : List.isPrefixOf "---".data content.data = true)
    (h2 : pyFindFrom content "---" 3 = none) :
    parse_frontmatter content = [("_body", content)] := by
  unfold parse_frontmatter
  rw [if_pos h1, h2]
  rfl

theorem lookupKey_fastdict (a b c : RVal) :
    lookupKey [("response", a), ("selected_skill", b), ("tools_called", c)] "tool_results"
      = none := rfl

theorem lookupKey_stddict (a b c d e : RVal) :
    lookupKey [("response", a), ("selected_skill", b), ("tools_called", c),
      ("tool_results", d), ("token_usage", e)] "tool_results" = some d := rfl

/-! ## Claims -/

/-- Demo skills tree with one skill directory. -/
def fsDemo : List DirEntry :=
  [⟨"pdf-extract", true,
    some "---\nname: pdf-extract\ndescription: Extracts text from PDF files. Works offline.\n---\nStep one",
    true⟩]

/-- Demo oracle that answers immediately without tool calls. -/
def oracleAnswer : Nat → ModelResponse := fun _ => ⟨"plain answer", [], ⟨3, 4, 7⟩⟩

/-- C1: for every run of the agent loop, no tool with identical
`(toolName, canonical sorted-key serialization of args)` is physically
invoked twice.  The instrumentation log records every requested call in run
order; `DedupOk l1 r` states that when the canonical key of request `r` is
already recorded in the `tool_results` accumulated from the requests `l1`
answered before it (`resultsOfLog l1`), the request is answered from the
cache (`cachedDup` - `invoke` is not called) with exactly the `result_full`
of the first recorded invocation of that key, and is re-executed otherwise.
The second conjunct is the guarantee that the physically executed requests
have pairwise distinct canonical keys; the third ties `resultsOfLog` of the
run log to the `tool_results` list the caller receives. -/
theorem C1_dedup_guarantee (fs : List DirEntry) (catalog : List ToolSpec)
    (oracle : Nat → ModelResponse) (query : String) :
    (∀ l1 r l2, (run_agent fs catalog oracle query).callLog = l1 ++ r :: l2 → DedupOk l1 r)
    ∧ ((run_agent fs catalog oracle query).callLog.filter nonDup).Pairwise
        (fun a b => recKey a ≠ recKey b)
    ∧ (∀ d l, (run_agent fs catalog oracle query).result = .ok d →
        lookupKey d "tool_results" = some (RVal.results l) →
        resultsOfLog (run_agent fs catalog oracle query).callLog =
          l.map (fun tr => (canonKey tr.tool tr.args, tr.result_full))) := by
  refine ⟨run_agent_goodLog fs catalog oracle query,
    pairwise_of_goodLog _ (run_agent_goodLog fs catalog oracle query), ?_⟩
  intro d l hd hl
  by_cases hq : _is_list_skills_query query
  · rw [run_agent_fast fs catalog oracle query hq] at hd
    have hdl : d = [("response", RVal.str (list_available_skills (get_registry fs))),
        ("selected_skill", RVal.optStr none),
        ("tools_called", RVal.strList ["list_available_skills"])] := by
      simpa using hd.symm
    rw [hdl, lookupKey_fastdict] at hl
    exact absurd hl (by simp)
  · have hq2 : _is_list_skills_query query = false := by simpa using hq
    cases hrg : (runGraph catalog oracle RECURSION_LIMIT initialRunState).1 with
    | error e =>
      rw [run_agent_result_standard_err fs catalog oracle query e hq2 hrg] at hd
      exact absurd hd (by simp)
    | ok c =>
      rw [run_agent_result_standard_ok fs catalog oracle query c hq2 hrg] at hd
      have hdl : d =
          [("response", RVal.str (extract_text_content c)),
           ("selected_skill",
            RVal.optStr (runGraph catalog oracle RECURSION_LIMIT initialRunState).2.selected_skill),
           ("tools_called",
            RVal.strList ((runGraph catalog oracle
              RECURSION_LIMIT initialRunState).2.tool_results.map ToolResult.tool)),
           ("tool_results",
            RVal.results (runGraph catalog oracle RECURSION_LIMIT initialRunState).2.tool_results),
           ("token_usage",
            RVal.usage (runGraph catalog oracle RECURSION_LIMIT initialRunState).2.token_usage)] := by
        simpa using hd.symm
      rw [hdl, lookupKey_stddict] at hl
      have hleq : l = (runGraph catalog oracle RECURSION_LIMIT initialRunState).2.tool_results := by
        have := Option.some_inj.mp hl
        simpa using this.symm
      rw [run_agent_callLog_standard fs catalog oracle query hq2, hleq]
      exact run_agent_stateInvariant_standard catalog oracle

/-- Witness for C1 at a concrete run: the demo oracle requests the same call
twice in one turn; the second request is served from the cache with the
result of the first. -/
theorem C1_dedup_guarantee_witness :
    (⟨"t", [], CallOutcome.cachedDup, "OUT"⟩ : CallRecord).outcome = CallOutcome.cachedDup
    ∧ (⟨"t", [], CallOutcome.cachedDup, "OUT"⟩ : CallRecord).message = "OUT" :=
  ((C1_dedup_guarantee [] demoCatalog demoOracle "run the demo").1
    [⟨"t", [], CallOutcome.ranTool, "OUT"⟩] ⟨"t", [], CallOutcome.cachedDup, "OUT"⟩ []
    (by decide)).1 "OUT" (by decide)

/-- C2 counterexample: the fast-path return of `run_agent` for a list-skills
query carries only the three keys `response`, `selected_skill` and
`tools_called`; in particular `tool_results` (and `token_usage`) are absent,
so the claimed five-field shape does not hold on the fast path. -/
theorem C2_fastpath_shape_counterexample :
    (run_agent fsDemo demoCatalog demoOracle "what can you do").result.map
        (fun d => d.map Prod.fst) = .ok ["response", "selected_skill", "tools_called"]
    ∧ (run_agent fsDemo demoCatalog demoOracle "what can you do").result.map
        (fun d => decide ("tool_results" ∈ d.map Prod.fst)) = .ok false := by
  constructor
  · decide
  · decide

/-- C2 amended: the standard path returns the five-field dict (when the run
completes without the recursion-limit exception), but the fast path returns
only the three fields `response`, `selected_skill`, `tools_called`. -/
theorem C2_result_shape_amended (fs : List DirEntry) (catalog : List ToolSpec)
    (oracle : Nat → ModelResponse) (query : String) :
    (_is_list_skills_query query = true →
      (run_agent fs catalog oracle query).result.map (fun d => d.map Prod.fst) =
        .ok ["response", "selected_skill", "tools_called"])
    ∧ (_is_list_skills_query query = false →
      ((run_agent fs catalog oracle query).result.map (fun d => d.map Prod.fst) =
          .ok ["response", "selected_skill", "tools_called", "tool_results", "token_usage"]
        ∨ (run_agent fs catalog oracle query).result = .error .recursionLimit)) := by
  constructor
  · intro h
    rw [run_agent_fast fs catalog oracle query h]
    rfl
  · intro h
    cases hrg : (runGraph catalog oracle RECURSION_LIMIT initialRunState).1 with
    | error e =>
      right
      rw [run_agent_result_standard_err fs catalog oracle query e h hrg]
    | ok c =>
      left
      rw [run_agent_result_standard_ok fs catalog oracle query c h hrg]
      rfl

/-- Witness for C2 amended at concrete runs of both paths. -/
theorem C2_result_shape_amended_witness :
    (run_agent fsDemo demoCatalog demoOracle "list skills please").result.map
        (fun d => d.map Prod.fst) = .ok ["response", "selected_skill", "tools_called"]
    ∧ ((run_agent fsDemo demoCatalog oracleAnswer "hello there").result.map
          (fun d => d.map Prod.fst) =
        .ok ["response", "selected_skill", "tools_called", "tool_results", "token_usage"]
      ∨ (run_agent fsDemo demoCatalog oracleAnswer "hello there").result =
        .error .recursionLimit) :=
  ⟨(C2_result_shape_amended fsDemo demoCatalog demoOracle "list skills please").1 (by decide),
   (C2_result_shape_amended fsDemo demoCatalog oracleAnswer "hello there").2 (by decide)⟩

/-- C3 counterexample: with a decision model that requests a tool call on
every turn, `run_agent` does not return a result object: the
`GraphRecursionError` raised when the recursion limit of 8 supersteps is
exhausted escapes `run_agent` uncaught (the `Except.error` outcome), so no
well-typed result dict reaches the caller from `run_agent` itself. -/
theorem C3_recursion_limit_counterexample :
    (run_agent [] demoCatalog loopingOracle "hello there").result = .error .recursionLimit
    ∧ ∀ d, (run_agent [] demoCatalog loopingOracle "hello there").result ≠ .ok d := by
  constructor
  · decide
  · intro d h
    rw [show (run_agent [] demoCatalog loopingOracle "hello there").result =
      .error .recursionLimit from by decide] at h
    exact absurd h (by simp)

/-- C3 amended: when the decision model requests tool calls on every turn,
the run does terminate - the loop is bounded by the recursion limit of 8
supersteps - and the failure is the distinct `GraphRecursionError`; but
`run_agent` surfaces it by letting the exception propagate to its caller
rather than returning a structured result object. -/
theorem C3_recursion_limit_amended (fs : List DirEntry) (catalog : List ToolSpec)
    (oracle : Nat → ModelResponse) (query : String)
    (h1 : ∀ k, (oracle k).tool_calls ≠ [])
    (h2 : _is_list_skills_query query = false) :
    (run_agent fs catalog oracle query).result = .error .recursionLimit :=
  run_agent_result_standard_err fs catalog oracle query .recursionLimit h2
    (runGraph_always_calls catalog oracle h1 RECURSION_LIMIT initialRunState)

/-- Witness for C3 amended at a concrete always-calling oracle. -/
theorem C3_recursion_limit_amended_witness :
    (run_agent [] demoCatalog loopingOracle "what is two plus two").result =
      .error .recursionLimit :=
  C3_recursion_limit_amended [] demoCatalog loopingOracle "what is two plus two"
    (fun k => by simp [loopingOracle]) (by decide)

/-- Catalog with one tool whose body raises `ValueError("boom happened")`. -/
def raisingCatalog : List ToolSpec :=
  [⟨"scraper", fun _ => .error ⟨"ValueError", "boom happened"⟩⟩]

/-- C4 counterexample: when a tool raises, `_tool_node` converts the
exception into `json.dumps({"error": str(e), "tool": name})` - the structured
result carries the message and the tool name, but not the exception kind:
the kind string `ValueError` appears nowhere in the result. -/
theorem C4_error_kind_counterexample :
    (execToolRequest raisingCatalog "scraper" []).1 =
        "\x7b\"error\": \"boom happened\", \"tool\": \"scraper\"\x7d"
    ∧ strContains (execToolRequest raisingCatalog "scraper" []).1 "ValueError" = false := by
  constructor
  · decide
  · decide

/-- C4 amended: an unknown tool name yields the structured unknown-tool error
string; a raising tool is caught and converted to a structured error carrying
the exception message and the tool name (not the exception kind); a
successful tool returns its result; and in every case the tool-execution step
answers the request with exactly one logged message - the run continues, no
exception escapes the step. -/
theorem C4_tool_error_handling_amended (catalog : List ToolSpec) (name : String)
    (args : List (String × String)) :
    (toolMapGet catalog name = none →
      execToolRequest catalog name args =
        (jsonObj1 "error" ("Unknown tool: " ++ name), false))
    ∧ (∀ t e, toolMapGet catalog name = some t → t.invoke args = .error e →
        execToolRequest catalog name args = (jsonObj2 "error" e.msg "tool" name, true)
          ∧ ((∀ c ∈ e.msg.data, plainChar c = true) →
              strContains (execToolRequest catalog name args).1 e.msg = true)
          ∧ ((∀ c ∈ name.data, plainChar c = true) →
              strContains (execToolRequest catalog name args).1 name = true))
    ∧ (∀ t r, toolMapGet catalog name = some t → t.invoke args = .ok r →
        execToolRequest catalog name args = (r, true))
    ∧ (∀ (acc : ToolNodeAcc) (tc : ToolCall),
        (toolCallStep catalog acc tc).log.length = acc.log.length + 1) := by
  refine ⟨?_, ?_, ?_, ?_⟩
  · intro h
    unfold execToolRequest
    rw [h]
  · intro t e ht he
    have hx : execToolRequest catalog name args = (jsonObj2 "error" e.msg "tool" name, true) := by
      unfold execToolRequest
      simp only [ht, he]
    refine ⟨hx, ?_, ?_⟩
    · intro hp
      rw [hx]
      exact strContains_jsonObj2_v1 _ _ _ _ hp
    · intro hp
      rw [hx]
      exact strContains_jsonObj2_v2 _ _ _ _ hp
  · intro t r ht hr
    unfold execToolRequest
    simp only [ht, hr]
  · intro acc tc
    unfold toolCallStep
    by_cases hdup : acc.already_called.any (fun k => k = canonKey tc.name tc.args)
    · rw [if_pos hdup]
      simp
    · rw [if_neg hdup]
      simp

/-- Witness for C4 amended at a concrete catalog: an unknown tool, a raising
tool (with the claimed message and name in the structured error), and the
single-record log growth of the execution step. -/
theorem C4_tool_error_handling_amended_witness :
    execToolRequest raisingCatalog "missing" [] =
        (jsonObj1 "error" ("Unknown tool: " ++ "missing"), false)
    ∧ execToolRequest raisingCatalog "scraper" [] =
        (jsonObj2 "error" "boom happened" "tool" "scraper", true)
    ∧ strContains (execToolRequest raisingCatalog "scraper" []).1 "boom happened" = true
    ∧ (toolCallStep raisingCatalog ⟨[], [], none, []⟩ ⟨"scraper", []⟩).log.length = 0 + 1 := by
  have h := C4_tool_error_handling_amended raisingCatalog "scraper" []
  have he := h.2.1 ⟨"scraper", fun _ => .error ⟨"ValueError", "boom happened"⟩⟩
    ⟨"ValueError", "boom happened"⟩ rfl rfl
  exact ⟨(C4_tool_error_handling_amended raisingCatalog "missing" []).1 rfl,
    he.1, he.2.1 (by decide), (h.2.2.2 ⟨[], [], none, []⟩ ⟨"scraper", []⟩)⟩

/-- C5: registry loading is a pure function of the skills directory tree: two
successive loads over an unchanged tree produce equal name-to-description
maps, and in fact fully value-equal registries (so each skill directory
yields value-equal metadata on every load). -/
theorem C5_registry_load_idempotent (fs1 fs2 : List DirEntry) (h : fs1 = fs2) :
    (load_skill_registry fs1).map (fun p => (p.1, p.2.description)) =
        (load_skill_registry fs2).map (fun p => (p.1, p.2.description))
    ∧ load_skill_registry fs1 = load_skill_registry fs2 := by
  subst h
  exact ⟨rfl, rfl⟩

/-- Witness for C5 on the concrete demo tree. -/
theorem C5_registry_load_idempotent_witness :
    (load_skill_registry fsDemo).map (fun p => (p.1, p.2.description)) =
        (load_skill_registry fsDemo).map (fun p => (p.1, p.2.description))
    ∧ load_skill_registry fsDemo = load_skill_registry fsDemo :=
  C5_registry_load_idempotent fsDemo fsDemo rfl

/-- Skill directory whose SKILL.md frontmatter has no closing `---`. -/
def fsUnclosed : List DirEntry :=
  [⟨"foo", true, some "---\nname: foo\ndescription: something useful", false⟩]

/-- Tree whose single SKILL.md has a closed but empty frontmatter header, so
it lacks a `name` field: `yaml.safe_load` returns `None` without raising and
`fm.get` then raises an uncaught `AttributeError`. -/
def fsEmptyHeader : List DirEntry :=
  [⟨"empty-header", true, some "---\n\n---\nbody", false⟩]

theorem lc_go_cons (acc : List (String × SkillMetadata)) (d : DirEntry)
    (rest : List DirEntry) :
    lc_load_registry_go acc (d :: rest) =
      match lc_step acc d with
      | .error e => .error e
      | .ok r2 => lc_load_registry_go r2 rest := rfl

theorem lc_go_append (acc : List (String × SkillMetadata)) (l1 l2 : List DirEntry) :
    lc_load_registry_go acc (l1 ++ l2) =
      match lc_load_registry_go acc l1 with
      | .error e => .error e
      | .ok acc2 => lc_load_registry_go acc2 l2 := by
  induction l1 generalizing acc with
  | nil => rfl
  | cons d rest ih =>
    rw [List.cons_append, lc_go_cons, lc_go_cons]
    cases hs : lc_step acc d with
    | error e => rfl
    | ok r2 => exact ih r2

theorem lc_step_skip (reg : List (String × SkillMetadata)) (d : DirEntry) (content : String)
    (hdir : d.isDir = true) (hmd : d.skillMd = some content)
    (hparse : _parse_skill_md content = .ok none) :
    lc_step reg d = .ok reg := by
  simp [lc_step, hdir, hmd, hparse]

theorem lc_step_raise (reg : List (String × SkillMetadata)) (d : DirEntry) (content : String)
    (e : PyExn) (hdir : d.isDir = true) (hmd : d.skillMd = some content)
    (hparse : _parse_skill_md content = .error e) :
    lc_step reg d = .error e := by
  simp [lc_step, hdir, hmd, hparse]

/-- C6 counterexample: the claim fails on both loaders.  The skills_registry
loader does not skip a directory whose header lacks the closing delimiter:
it registers it under the directory name with the default description.  And
the langchain_skills loader does not even complete without raising on every
malformed document: for a closed header lacking a `name` field because the
block is empty, `yaml.safe_load` returns `None` (not raising and hence not
caught by the `except yaml.YAMLError` handler) and the `fm.get` call raises
an uncaught `AttributeError` that aborts the whole registry load. -/
theorem C6_malformed_registered_counterexample :
    load_skill_registry fsUnclosed =
        [("foo", ⟨"foo", "No description available.",
          "---\nname: foo\ndescription: something useful", false⟩)]
    ∧ (lookupKey (load_skill_registry fsUnclosed) "foo").isSome = true
    ∧ lc_load_skill_registry fsEmptyHeader =
        .error ⟨"AttributeError", attrErrMsg "NoneType"⟩
    ∧ _parse_skill_md "---\nname: foo\ndescription: something useful" = .ok none := by
  refine ⟨by decide, by decide, by decide, by decide⟩

/-- C6 amended: the claimed skip holds only for part of the malformed class
and only for the langchain_skills loader.  (i) A directory whose document
parses to `None` - unclosed header, caught YAMLError, or a flat mapping with
missing or empty name or description - is skipped by the langchain_skills
loader without raising, leaving the registry as if the directory were
absent; (ii) but when the closed header block yaml-parses to a non-mapping
value (e.g. an empty block, which in particular lacks a `name` field),
`yaml.safe_load` returns it without raising and the uncaught
`AttributeError` from `fm.get` aborts the whole registry load; (iii) an
unclosed header indeed yields the clean skip; (iv) a non-mapping header
block always yields the `AttributeError`; (v) the skills_registry loader
never raises but registers an unclosed-header directory under the directory
name with the default description instead of skipping it. -/
theorem C6_malformed_skipped_amended :
    (∀ (pre post : List DirEntry) (d : DirEntry) (content : String),
        d.isDir = true → d.skillMd = some content → _parse_skill_md content = .ok none →
        lc_load_skill_registry (pre ++ d :: post) = lc_load_skill_registry (pre ++ post))
    ∧ (∀ (pre post : List DirEntry) (d : DirEntry) (content : String) (e : PyExn)
        (acc : List (String × SkillMetadata)),
        lc_load_registry_go [] pre = .ok acc →
        d.isDir = true → d.skillMd = some content → _parse_skill_md content = .error e →
        lc_load_skill_registry (pre ++ d :: post) = .error e)
    ∧ (∀ content : String, fmGroup content.data = none → _parse_skill_md content = .ok none)
    ∧ (∀ (content : String) (gl : List Char) (ty : String),
        fmGroup content.data = some gl →
        yamlSimpleLoad (String.mk gl) = some (.nonMapping ty) →
        _parse_skill_md content = .error ⟨"AttributeError", attrErrMsg ty⟩)
    ∧ (∀ (dirname content : String) (sd : Bool),
        List.isPrefixOf "---".data content.data = true →
        pyFindFrom content "---" 3 = none →
        load_skill_registry [⟨dirname, true, some content, sd⟩] =
          [(dirname, ⟨dirname, "No description available.", content, sd⟩)]) := by
  refine ⟨?_, ?_, ?_, ?_, ?_⟩
  · intro pre post d content hdir hmd hparse
    unfold lc_load_skill_registry
    rw [lc_go_append [] pre (d :: post), lc_go_append [] pre post]
    cases hp : lc_load_registry_go [] pre with
    | error e => rfl
    | ok acc =>
      show lc_load_registry_go acc (d :: post) = lc_load_registry_go acc post
      rw [lc_go_cons, lc_step_skip acc d content hdir hmd hparse]
  · intro pre post d content e acc hpre hdir hmd hparse
    unfold lc_load_skill_registry
    rw [lc_go_append [] pre (d :: post), hpre]
    show lc_load_registry_go acc (d :: post) = .error e
    rw [lc_go_cons, lc_step_raise acc d content e hdir hmd hparse]
  · intro content h
    unfold _parse_skill_md
    rw [h]
  · intro content gl ty h1 h2
    unfold _parse_skill_md
    simp only [h1, h2]
  · intro dirname content sd h1 h2
    have hload : load_skill_registry [⟨dirname, true, some content, sd⟩] =
        (let meta := parse_frontmatter content
         let name := (lookupKey meta "name").getD dirname
         let description := (lookupKey meta "description").getD "No description available."
         let body := (lookupKey meta "_body").getD content
         dictInsert [] name ⟨name, description, body, sd⟩) := rfl
    rw [hload, parse_frontmatter_unclosed content h1 h2]
    rfl

/-- Witness for C6 amended at concrete trees: the langchain_skills loader
skips the unclosed document, aborts with the `AttributeError` on a
whitespace-only header block, and the skills_registry loader registers an
unclosed document with the fallback fields. -/
theorem C6_malformed_skipped_amended_witness :
    lc_load_skill_registry
        ([] ++ (⟨"foo", true, some "---\nname: foo\ndescription: something useful", false⟩ : DirEntry)
          :: []) = lc_load_skill_registry ([] ++ [])
    ∧ lc_load_skill_registry
        ([] ++ (⟨"broken", true, some "---\n \n---\nsome body", false⟩ : DirEntry) :: []) =
        .error ⟨"AttributeError", attrErrMsg "NoneType"⟩
    ∧ load_skill_registry [⟨"bar", true, some "---\nname: bar", true⟩] =
        [("bar", ⟨"bar", "No description available.", "---\nname: bar", true⟩)] :=
  ⟨C6_malformed_skipped_amended.1 [] [] _ "---\nname: foo\ndescription: something useful"
      rfl rfl (by decide),
   C6_malformed_skipped_amended.2.1 [] [] _ "---\n \n---\nsome body"
      ⟨"AttributeError", attrErrMsg "NoneType"⟩ [] rfl rfl rfl (by decide),
   C6_malformed_skipped_amended.2.2.2.2 "bar" "---\nname: bar" true (by decide) (by decide)⟩

/-- Registry where a later skill has strictly more keyword overlap than an
earlier one. -/
def kwRegistry : List (String × SkillMetadata) :=
  [("first-skill", ⟨"first-skill", "alphaword betaword"⟩),
   ("second-skill", ⟨"second-skill", "alphaword betaword gammaword"⟩)]

/-- Query hitting all three keywords. -/
def kwQuery : String := "please use alphaword betaword gammaword now"

/-- C7 counterexample: with an unparsable model response, the keyword
fallback returns `first-skill` (2 overlapping keywords) although
`second-skill` has the strictly higher overlap (3): the fallback picks the
first skill in registry order reaching the threshold, not the one with the
highest overlap. -/
theorem C7_fallback_not_highest_counterexample :
    (select_skill kwQuery kwRegistry (.error "boom")).1 = some "first-skill"
    ∧ (select_skill kwQuery kwRegistry (.error "boom")).2.2 =
        "Keyword fallback match (2 keywords)"
    ∧ kwMatches "alphaword betaword gammaword" kwQuery = 3
    ∧ kwMatches "alphaword betaword" kwQuery = 2 := by
  refine ⟨by decide, by decide, by decide, by decide⟩

/-- C7 amended: on a parse failure `select_skill` never throws and returns a
usable tuple deterministically: it scans the registry in insertion order,
counting description tokens longer than 4 characters that occur in the
lowercased query, and returns the FIRST skill whose count reaches 2 (with
confidence 0.5 and a reasoning naming the count) - not the skill with the
highest overlap; when no skill reaches the threshold it returns
`(none, 0, "JSON parse error: " ++ e)`. -/
theorem C7_fallback_amended (user_query : String)
    (registry : List (String × SkillMetadata)) (e : String) (hne : registry ≠ []) :
    (∀ p, registry.find? (fun q => kwMatches q.2.description user_query ≥ 2) = some p →
      select_skill user_query registry (.error e) =
        (some p.1, 1/2,
         "Keyword fallback match (" ++ toString (kwMatches p.2.description user_query) ++
           " keywords)"))
    ∧ (registry.find? (fun q => kwMatches q.2.description user_query ≥ 2) = none →
      select_skill user_query registry (.error e) = (none, 0, "JSON parse error: " ++ e)) := by
  have hni : registry.isEmpty = false := by
    cases registry
    · exact absurd rfl hne
    · rfl
  constructor
  · intro p hp
    unfold select_skill
    rw [if_neg (by simp [hni])]
    simp only [hp]
  · intro hf
    unfold select_skill
    rw [if_neg (by simp [hni])]
    simp only [hf]

/-- Single-skill registry for the C7 witness. -/
def wRegistry : List (String × SkillMetadata) :=
  [("color-picker", ⟨"color-picker", "choose colorful palette options"⟩)]

/-- Witness for C7 amended: a query with three matching keywords selects the
skill with confidence 0.5, and a query with no matching keywords reports the
parse error. -/
theorem C7_fallback_amended_witness :
    select_skill "please choose a colorful palette" wRegistry (.error "oops") =
      (some "color-picker", 1/2,
       "Keyword fallback match ("
         ++ toString (kwMatches "choose colorful palette options" "please choose a colorful palette")
         ++ " keywords)")
    ∧ select_skill "zzz" wRegistry (.error "oops2") = (none, 0, "JSON parse error: oops2") :=
  ⟨(C7_fallback_amended "please choose a colorful palette" wRegistry "oops" (by decide)).1
      ("color-picker", ⟨"color-picker", "choose colorful palette options"⟩) (by decide),
   (C7_fallback_amended "zzz" wRegistry "oops2" (by decide)).2 (by decide)⟩

/-- Registry with two names both fuzzy-matchable from the same candidate. -/
def ytRegistry : List (String × SkillMetadata) :=
  [("youtube-transcript", ⟨"youtube-transcript", "transcripts"⟩),
   ("youtube-tech-summarizer", ⟨"youtube-tech-summarizer", "summaries"⟩)]

/-- C8 counterexample: the parsed skillName `youtube` fuzzy-matches BOTH
registry names (case-insensitive containment), i.e. more than one candidate
matches, yet `select_skill` resolves to the first candidate instead of
treating the ambiguity as no skill selected. -/
theorem C8_fuzzy_ambiguous_counterexample :
    (select_skill "summarize stuff" ytRegistry (.ok ⟨true, some "youtube", 1, "r"⟩)).1 =
        some "youtube-transcript"
    ∧ fuzzyMatch "youtube" "youtube-transcript" = true
    ∧ fuzzyMatch "youtube" "youtube-tech-summarizer" = true
    ∧ ("youtube-transcript" : String) ≠ "youtube-tech-summarizer" := by
  refine ⟨by decide, by decide, by decide, by decide⟩

/-- C8 amended: when the parsed skillName is non-null, non-empty and not an
exact registry key, `select_skill` scans the registry in insertion order with
case-insensitive containment in either direction and uses the FIRST matching
name - no uniqueness of the candidate is required; only when no name matches
is the result no skill (`none`). -/
theorem C8_fuzzy_first_amended (user_query : String)
    (registry : List (String × SkillMetadata)) (parsed : ParsedDecision) (sn : String)
    (hne : registry ≠ []) (hns : parsed.needs_skill = true)
    (hsn : parsed.skill_name = some sn) (hnz : sn ≠ "")
    (hnex : registry.any (fun p => p.1 = sn) = false) :
    (select_skill user_query registry (.ok parsed)).1 =
      (registry.find? (fun p => fuzzyMatch sn p.1)).map Prod.fst := by
  have hni : registry.isEmpty = false := by
    cases registry
    · exact absurd rfl hne
    · rfl
  unfold select_skill
  rw [if_neg (by simp [hni])]
  simp only [hns, hsn, if_true]
  rw [if_pos ⟨hnz, by simp [hnex]⟩]
  cases hf : registry.find? (fun p => fuzzyMatch sn p.1) with
  | none => simp [hf]
  | some p => simp [hf]

/-- Witness for C8 amended: the candidate `tech` matches exactly one registry
name and resolves to it. -/
theorem C8_fuzzy_first_amended_witness :
    (select_skill "play a video" ytRegistry (.ok ⟨true, some "tech", 1, "r2"⟩)).1 =
      some "youtube-tech-summarizer" := by
  have h := C8_fuzzy_first_amended "play a video" ytRegistry ⟨true, some "tech", 1, "r2"⟩ "tech"
    (by decide) rfl rfl (by decide) (by decide)
  rw [h]
  decide

/-- C9: every query matched by the fixed lowercase substring triggers is
answered on the fast path: the decision model is never invoked (zero model
calls), the response text IS the output of the `list_available_skills` tool
on the freshly loaded registry, and that listing contains every registered
skill name in display form. -/
theorem C9_fast_path_equivalence (fs : List DirEntry) (catalog : List ToolSpec)
    (oracle : Nat → ModelResponse) (query : String)
    (h : _is_list_skills_query query = true) :
    (run_agent fs catalog oracle query).llmCalls = 0
    ∧ (run_agent fs catalog oracle query).result = .ok
        [("response", .str (list_available_skills (get_registry fs))),
         ("selected_skill", .optStr none),
         ("tools_called", .strList ["list_available_skills"])]
    ∧ ∀ p ∈ get_registry fs,
        strContains (list_available_skills (get_registry fs)) (displayName p.1) = true := by
  have hf := run_agent_fast fs catalog oracle query h
  refine ⟨by rw [hf], by rw [hf], ?_⟩
  intro p hp
  exact listing_contains_display (get_registry fs) p.1 p.2 (by simpa using hp)

/-- Witness for C9 at the demo tree and the canonical list-skills query. -/
theorem C9_fast_path_equivalence_witness :
    (run_agent fsDemo demoCatalog demoOracle "What skills do you have available?").llmCalls = 0
    ∧ strContains (list_available_skills (get_registry fsDemo)) (displayName "pdf-extract")
        = true := by
  have h := C9_fast_path_equivalence fsDemo demoCatalog demoOracle
    "What skills do you have available?" (by decide)
  refine ⟨h.1, ?_⟩
  apply h.2.2 ("pdf-extract",
    ⟨"pdf-extract", "Extracts text from PDF files. Works offline.", "Step one", true⟩)
  decide

/-- C10: any query whose lowercased stripped form contains one of the eleven
trigger substrings - including the generic `help me` - takes the fast path:
`run_agent` returns the skills listing with zero decision-model calls and
reports only the one `list_available_skills` invocation, regardless of the
rest of the query (a query like `help me summarize this YouTube video` is
answered with the listing, not by executing a skill). -/
theorem C10_trigger_fast_path (fs : List DirEntry) (catalog : List ToolSpec)
    (oracle : Nat → ModelResponse) (query : String) (p : String)
    (hp : p ∈ _LIST_SKILLS_PATTERNS)
    (hc : strContains (pyStrip (pyLower query)) p = true) :
    run_agent fs catalog oracle query =
      { result := .ok
          [("response", .str (list_available_skills (get_registry fs))),
           ("selected_skill", .optStr none),
           ("tools_called", .strList ["list_available_skills"])],
        llmCalls := 0,
        callLog := [⟨"list_available_skills", [], .ranTool,
          list_available_skills (get_registry fs)⟩] } := by
  apply run_agent_fast
  unfold _is_list_skills_query
  rw [List.any_eq_true]
  exact ⟨p, hp, hc⟩

/-- Witness for C10: the YouTube-summary request containing `help me` is
answered with the listing and zero model calls. -/
theorem C10_trigger_fast_path_witness :
    (run_agent fsDemo demoCatalog demoOracle "Help me summarize this YouTube video").llmCalls = 0
    ∧ (run_agent fsDemo demoCatalog demoOracle "Help me summarize this YouTube video").result =
        .ok [("response", .str (list_available_skills (get_registry fsDemo))),
             ("selected_skill", .optStr none),
             ("tools_called", .strList ["list_available_skills"])] := by
  have h := C10_trigger_fast_path fsDemo demoCatalog demoOracle
    "Help me summarize this YouTube video" "help me" (by decide) (by decide)
  rw [h]
  exact ⟨rfl, rfl⟩
